import Mathlib

/-!
Shallow embedding of the core of the `score` discrete-event simulation
library (Rust).  Sources: `src/sim_time.rs`, `src/component.rs`,
`src/components.rs`, `src/store.rs`, `src/event.rs`, `src/effector.rs`,
`src/simulation.rs`.

Conventions: `f64` values are modelled as exact rationals (`Rat`); `i64`,
`u64` and `usize` as `Int`/`Nat` with explicit `% 2 ^ 64` where the source
wraps; Rust panics become an error value (`Except` for the pure store
functions, a sticky `failed` flag on the kernel state).  `HashMap`s become
association lists.
-/

/-- Logical simulation time, sim_time.rs: `struct Time(pub i64)`, in ticks. -/
abbrev Time := Int

/-- component.rs: `struct ComponentID(pub usize)`, a dense index. -/
abbrev ComponentID := Nat

/-- component.rs: `NO_COMPONENT = ComponentID(usize::MAX)` sentinel. -/
def NO_COMPONENT : ComponentID := 2 ^ 64 - 1

/-- component.rs `Component`. -/
structure Component where
  name : String
  parent : ComponentID
  children : List ComponentID
deriving DecidableEq, Repr

/-- logging.rs `LogLevel`. -/
inductive LogLevel
  | error
  | warning
  | info
  | debug
  | excessive
deriving DecidableEq, Repr

/-- event.rs `Event`.  The payload (`Option<Box<Any + Send>>`) is an opaque
dynamically typed value that the kernel itself never inspects; it is omitted
from the embedding. -/
structure Event where
  name : String
  port_name : String
deriving DecidableEq, Repr

/-- simulation.rs `ScheduledEvent`: a (time, target, event) scheduler entry
(the source calls the target field `to`, a reserved word here). -/
structure ScheduledEvent where
  time : Time
  target : ComponentID
  event : Event
deriving DecidableEq, Repr

/-- Panic / fatal error conditions of the embedded code.  `outOfFuel` is a
model artifact: it marks exhaustion of the structural-recursion fuel used to
embed the source's recursion over the component tree (which terminates on
every well-formed tree because child ids are strictly larger than parent
ids). -/
inductive Err
  | alreadySet
  | invalidKey
  | inactiveTarget
  | assertFailed (msg : String)
  | outOfFuel
deriving DecidableEq, Repr

/-- A `HashMap<String, (Time, V)>` from store.rs, as an association list with
the most recent insertion first.  The source only uses insert and lookup. -/
abbrev KVMap (α : Type) := List (String × Time × α)

/-- `HashMap::get`. -/
def mapLookup {α : Type} (m : KVMap α) (key : String) : Option (Time × α) :=
  (m.find? (fun e => e.1 = key)).map (fun e => e.2)

/-- `HashMap::insert` (replacing any previous entry for the key). -/
def mapInsert {α : Type} (m : KVMap α) (key : String) (v : Time × α) : KVMap α :=
  (key, v) :: m.eraseP (fun e => e.1 = key)

/-- store.rs: the body shared by all six `WriteableStore` setters
(`set_int_setting`, `set_int_data`, and the float/string variants):
`insert`, then panic iff the key already had an entry with the same write
time — regardless of whether the value is the same.  The panic is the
`"... has already been set"` message. -/
def set_typed {α : Type} (m : KVMap α) (key : String) (value : α) (time : Time) :
    Except Err (KVMap α) :=
  match mapLookup m key with
  | some old =>
    if old.1 = time then .error .alreadySet
    else .ok (mapInsert m key (time, value))
  | none => .ok (mapInsert m key (time, value))

/-- store.rs `Store`.  `f64` values are modelled as `Rat`. -/
structure Store where
  descriptions : List (String × String)
  int_settings : KVMap Int
  int_data : KVMap Int
  float_settings : KVMap Rat
  float_data : KVMap Rat
  string_settings : KVMap String
  string_data : KVMap String
deriving DecidableEq, Repr

/-- store.rs `Store::new`. -/
def Store.new : Store := ⟨[], [], [], [], [], [], []⟩

/-- store.rs `set_int_setting`. -/
def Store.set_int_setting (s : Store) (key : String) (value : Int) (time : Time) :
    Except Err Store :=
  (set_typed s.int_settings key value time).map (fun m => { s with int_settings := m })

/-- store.rs `set_int_data`. -/
def Store.set_int_data (s : Store) (key : String) (value : Int) (time : Time) :
    Except Err Store :=
  (set_typed s.int_data key value time).map (fun m => { s with int_data := m })

/-- store.rs `set_float_setting`. -/
def Store.set_float_setting (s : Store) (key : String) (value : Rat) (time : Time) :
    Except Err Store :=
  (set_typed s.float_settings key value time).map (fun m => { s with float_settings := m })

/-- store.rs `set_float_data`. -/
def Store.set_float_data (s : Store) (key : String) (value : Rat) (time : Time) :
    Except Err Store :=
  (set_typed s.float_data key value time).map (fun m => { s with float_data := m })

/-- store.rs `set_string_setting`. -/
def Store.set_string_setting (s : Store) (key : String) (value : String) (time : Time) :
    Except Err Store :=
  (set_typed s.string_settings key value time).map (fun m => { s with string_settings := m })

/-- store.rs `set_string_data`. -/
def Store.set_string_data (s : Store) (key : String) (value : String) (time : Time) :
    Except Err Store :=
  (set_typed s.string_data key value time).map (fun m => { s with string_data := m })

/-- Modelled from the spec: `Store::set_int` is called by simulation.rs
(`remove_components`, `apply_stores`, the REST handlers) and by effector.rs
(`Effector::set_int`) but is absent from `src/store.rs`, which only defines
the `_setting`/`_data` setter variants.  Spec §4.2 setter rules: empty key →
InvalidKey; existing entry with the same write_time and a different value →
AlreadySet; same write_time and same value → accepted no-op; different
write_time → overwrite; absent → insert.  Writes land in the `int_data` map
that `apply_stores` reads back.  (The spec's `edition` counter belongs to
the same missing Store variant and is observed by no claim; it is not
modelled.) -/
def Store.set_int (s : Store) (key : String) (value : Int) (time : Time) :
    Except Err Store :=
  if key = "" then .error .invalidKey
  else
    match mapLookup s.int_data key with
    | some old =>
      if old.1 = time then
        if old.2 = value then .ok s else .error .alreadySet
      else .ok { s with int_data := mapInsert s.int_data key (time, value) }
    | none => .ok { s with int_data := mapInsert s.int_data key (time, value) }

/-- Modelled from the spec: `Store::set_float`, like `Store.set_int`. -/
def Store.set_float (s : Store) (key : String) (value : Rat) (time : Time) :
    Except Err Store :=
  if key = "" then .error .invalidKey
  else
    match mapLookup s.float_data key with
    | some old =>
      if old.1 = time then
        if old.2 = value then .ok s else .error .alreadySet
      else .ok { s with float_data := mapInsert s.float_data key (time, value) }
    | none => .ok { s with float_data := mapInsert s.float_data key (time, value) }

/-- Modelled from the spec: `Store::set_string`, like `Store.set_int`. -/
def Store.set_string (s : Store) (key : String) (value : String) (time : Time) :
    Except Err Store :=
  if key = "" then .error .invalidKey
  else
    match mapLookup s.string_data key with
    | some old =>
      if old.1 = time then
        if old.2 = value then .ok s else .error .alreadySet
      else .ok { s with string_data := mapInsert s.string_data key (time, value) }
    | none => .ok { s with string_data := mapInsert s.string_data key (time, value) }

/-- effector.rs `LogRecord`. -/
structure LogRecord where
  level : LogLevel
  message : String
deriving DecidableEq, Repr

/-- effector.rs `Effector`: the staged side effects of one worker
invocation.  `events` entries are `(to, event, secs)`. -/
structure Effector where
  logs : List LogRecord
  events : List (ComponentID × Event × Rat)
  store : Store
  exit : Bool
  removed : Bool
deriving DecidableEq, Repr

/-- effector.rs `Effector::new`. -/
def Effector.new : Effector := ⟨[], [], Store.new, false, false⟩

/-- effector.rs `Effector::log`. -/
def Effector.log (e : Effector) (level : LogLevel) (message : String) : Effector :=
  { e with logs := e.logs ++ [⟨level, message⟩] }

/-- effector.rs `Effector::schedule_after_secs`: asserts a real target and
`secs > 0.0`. -/
def Effector.schedule_after_secs (e : Effector) (event : Event) (target : ComponentID)
    (secs : Rat) : Except Err Effector :=
  if target = NO_COMPONENT then .error (.assertFailed "to != NO_COMPONENT")
  else if 0 < secs then .ok { e with events := e.events ++ [(target, event, secs)] }
  else .error (.assertFailed "secs is not positive")

/-- `std::f64::EPSILON` = 2⁻⁵², exactly representable; the `secs` value that
`schedule_immediately` pushes as its "as soon as possible" marker. -/
def f64EPSILON : Rat := 1 / 2 ^ 52

/-- effector.rs `Effector::schedule_immediately`: pushes the event with
`secs = f64::EPSILON`. -/
def Effector.schedule_immediately (e : Effector) (event : Event) (target : ComponentID) :
    Except Err Effector :=
  if target = NO_COMPONENT then .error (.assertFailed "to != NO_COMPONENT")
  else .ok { e with events := e.events ++ [(target, event, f64EPSILON)] }

/-- effector.rs `Effector::set_int`: asserts the name is non-empty, then
records the patch in the effector's store at `Time(0)`. -/
def Effector.set_int (e : Effector) (name : String) (value : Int) : Except Err Effector :=
  if name = "" then .error (.assertFailed "name should not be empty")
  else (e.store.set_int name value 0).map (fun st => { e with store := st })

/-- effector.rs `Effector::set_float`. -/
def Effector.set_float (e : Effector) (name : String) (value : Rat) : Except Err Effector :=
  if name = "" then .error (.assertFailed "name should not be empty")
  else (e.store.set_float name value 0).map (fun st => { e with store := st })

/-- effector.rs `Effector::set_string`. -/
def Effector.set_string (e : Effector) (name : String) (value : String) :
    Except Err Effector :=
  if name = "" then .error (.assertFailed "name should not be empty")
  else (e.store.set_string name value 0).map (fun st => { e with store := st })

/-- components.rs `Components`. -/
structure Components where
  components : List Component
  max_log_path : Nat
deriving DecidableEq, Repr

/-- The parent-chain walk inside components.rs `full_path`, with fuel for
termination (the source loop terminates because every component's parent id
is strictly smaller than its own id; `cs.length + 1` fuel always suffices
then).  Returns the component names from the root downward. -/
def path_names (cs : List Component) : Nat → ComponentID → List String
  | 0, _ => []
  | fuel + 1, id =>
    if id = NO_COMPONENT then []
    else
      match cs.get? id with
      | some c => path_names cs fuel c.parent ++ [c.name]
      | none => []

/-- components.rs `full_path`: dotted path from the root downward. -/
def full_path (cs : List Component) (id : ComponentID) : String :=
  String.intercalate "." (path_names cs (cs.length + 1) id)

/-- Rust `format!("{0:<1$}", s, w)`: left-align `s`, padding with spaces up
to width `w` (never truncating). -/
def padTo (s : String) (w : Nat) : String :=
  s ++ String.mk (List.replicate (w - s.length) ' ')

/-- components.rs `display_path`: `format!("{0:<1$}", full_path(id),
self.max_log_path)`. -/
def Components.display_path (c : Components) (id : ComponentID) : String :=
  padTo (full_path c.components id) c.max_log_path

/-- simulation.rs `logged_path`, pure formatting part: `path` is the dotted
path (`"simulation"` for NO_COMPONENT), `largest` is `self.largest_path`
(length of the longest registered component path) and `cap` is
`config.max_log_path`. -/
def logged_path_fmt (path : String) (largest cap : Nat) : String :=
  if 0 < cap ∧ cap < largest then
    if cap < path.length then "…" ++ path.drop (path.length - cap)
    else padTo path cap
  else padTo path largest

/-- simulation.rs `logged_path`. -/
def logged_path (cs : List Component) (largest cap : Nat) (id : ComponentID) : String :=
  logged_path_fmt (if id = NO_COMPONENT then "simulation" else full_path cs id) largest cap

/-- The behavior claim C9 ascribes to `display_path`, written from the
claim's own words: right-pad to the maximum length over all component paths
(`largest`) capped at `config.max_log_path` (`cap`), and when the path
exceeds the cap, truncate from the left and prefix a single ellipsis
character (`cap = 0` means unlimited, per config.rs). -/
def display_path_claimed (path : String) (largest cap : Nat) : String :=
  if 0 < cap ∧ cap < path.length then "…" ++ path.drop (path.length - cap)
  else padTo path (if cap = 0 then largest else min largest cap)

/-- Wrapping 64-bit addition (`u64::wrapping_add`, and the release-mode
semantics of `+` on u64). -/
def u64add (a b : Nat) : Nat := (a + b) % 2 ^ 64

/-- simulation.rs `update_finger_print`: fold the entry's time (as u64), its
target id, and the first `min(name.len(), 8)` bytes of the event name into
the accumulator, all with wrapping 64-bit addition.  `bytes` is
`event.name.bytes()`, i.e. the UTF-8 bytes of the name. -/
def update_finger_print (fp : Nat) (t : Time) (target : ComponentID) (bytes : List Nat) : Nat :=
  let d1 := (t % (2 ^ 64 : Int)).toNat
  let d2 := u64add d1 target
  let d3 := (bytes.take (min bytes.length 8)).foldl u64add d2
  u64add fp d3

/-- The UTF-8 bytes of a string (`str::bytes`). -/
def nameBytes (s : String) : List Nat := s.toUTF8.toList.map (fun b => b.toNat)

/-- config.rs `Config` — the fields the kernel core reads.  `max_secs`
defaults to f64 INFINITY; the infinite case is tracked by a flag next to the
finite rational value. -/
structure Config where
  time_units : Rat
  max_secs : Rat
  max_secs_infinite : Bool
  num_init_stages : Nat
deriving DecidableEq, Repr

/-- `i64::max_value()`. -/
def i64Max : Int := 9223372036854775807

/-- Rust `as i64` on a (finite) f64: truncation toward zero. -/
def ratTrunc (q : Rat) : Int := if 0 ≤ q then ⌊q⌋ else ⌈q⌉

/-- simulation.rs `run_time_slice`'s `max_time`: `i64::max_value()` when
`max_secs` is infinite, else `(max_secs * time_units) as i64`. -/
def max_time (cfg : Config) : Int :=
  if cfg.max_secs_infinite then i64Max else ratTrunc (cfg.max_secs * cfg.time_units)

/-- simulation.rs `add_secs`: `delta = (secs * time_units) as i64`; deliver
at `current + delta` when `delta > 0`, else at `current + 1`.  The source
asserts `secs >= 0.0`; `apply_events` below performs that check before
calling this. -/
def add_secs (cfg : Config) (current : Time) (secs : Rat) : Time :=
  let delta := ratTrunc (secs * cfg.time_units)
  if 0 < delta then current + delta else current + 1

/-- A component thread's response behavior: one `Effector` per received
event.  Workers read only the immutable pre-instant snapshot, so they are
modelled as pure functions of the event. -/
abbrev Worker := Event → Effector

/-- A delivery the kernel made: (time, target, event name).  Recorded so the
theorems can speak about what was dispatched. -/
abbrev Delivery := Time × ComponentID × String

/-- simulation.rs `Simulation` (the kernel state).  `workers` models
`event_senders` together with the component threads: `some w` exactly when
the component has an event sender, `w` being the thread's response function.
`trace` records deliveries (a model-level observation) and `failed` models a
panic: once set, every kernel operation is a no-op, like unwinding. -/
structure Kernel where
  store : Store
  components : List Component
  workers : ComponentID → Option Worker
  cfg : Config
  current_time : Time
  exited : Option String
  scheduled : List ScheduledEvent
  event_num : Nat
  finger_print : Nat
  trace : List Delivery
  failed : Option Err

/-- simulation.rs `schedule`: push onto the scheduler. -/
def Kernel.schedule (s : Kernel) (event : Event) (target : ComponentID) (time : Time) : Kernel :=
  { s with scheduled := s.scheduled ++ [⟨time, target, event⟩] }

/-- Run one store mutation on the kernel's store, turning a store panic into
the kernel's failed flag. -/
def kstoreWrite (s : Kernel) (f : Store → Except Err Store) : Kernel :=
  if s.failed.isSome then s
  else
    match f s.store with
    | .ok st => { s with store := st }
    | .error e => { s with failed := some e }

/-- simulation.rs `no_op_thread`: consumes every event and sends back
`Effector::new()`. -/
def noOpWorker : Worker := fun _ => Effector.new

/-- simulation.rs `install_removed_thread`: replace the component's channel
pair so its events go to the drop-all `no_op_thread`. -/
def install_removed_thread (s : Kernel) (id : ComponentID) : Kernel :=
  { s with workers := Function.update s.workers id (some noOpWorker) }

/-- simulation.rs `remove_components`: install the drop-all worker, write
`<full_path>.removed = 1` at the current time, and recurse over the
children.  Fuel makes the recursion structural; `components.length + 1`
fuel suffices on every well-formed tree. -/
def remove_components : Kernel → ComponentID → Nat → Kernel
  | s, _, 0 => if s.failed.isSome then s else { s with failed := some .outOfFuel }
  | s, id, fuel + 1 =>
    if s.failed.isSome then s
    else
      match s.components.get? id with
      | none => { s with failed := some (.assertFailed "invalid component id") }
      | some c =>
        let s1 := install_removed_thread s id
        let s2 := kstoreWrite s1
          (fun st => st.set_int (full_path s1.components id ++ ".removed") 1 s1.current_time)
        c.children.foldl (fun acc child => remove_components acc child fuel) s2

/-- The component ids `remove_components` visits starting at `id` — the
component itself and all its descendants — under the same fuel discipline. -/
def descSelf (cs : List Component) : Nat → ComponentID → List ComponentID
  | 0, _ => []
  | fuel + 1, id =>
    match cs.get? id with
    | none => []
    | some c => id :: c.children.flatMap (fun child => descSelf cs fuel child)

/-- simulation.rs `apply_events`: schedule each pending `(to, event, secs)`
at `add_secs(secs)`; `add_secs` asserts `secs >= 0.0`. -/
def apply_events_step (s : Kernel) (e : ComponentID × Event × Rat) : Kernel :=
  if s.failed.isSome then s
  else if e.2.2 < 0 then { s with failed := some (.assertFailed "secs >= 0.0") }
  else s.schedule e.2.1 e.1 (add_secs s.cfg s.current_time e.2.2)

/-- simulation.rs `apply_events` as a fold of the step above. -/
def apply_events (s : Kernel) (events : List (ComponentID × Event × Rat)) : Kernel :=
  events.foldl apply_events_step s

/-- simulation.rs `apply_stores`: write every patch entry under the
component's full path at the current time.  (`HashMap` iteration order is
unspecified in the source; the model iterates in list order.) -/
def store_int_step (path : String) (s : Kernel) (e : String × Time × Int) : Kernel :=
  kstoreWrite s (fun st => st.set_int (path ++ "." ++ e.1) e.2.2 s.current_time)

def store_float_step (path : String) (s : Kernel) (e : String × Time × Rat) : Kernel :=
  kstoreWrite s (fun st => st.set_float (path ++ "." ++ e.1) e.2.2 s.current_time)

def store_string_step (path : String) (s : Kernel) (e : String × Time × String) : Kernel :=
  kstoreWrite s (fun st => st.set_string (path ++ "." ++ e.1) e.2.2 s.current_time)

/-- simulation.rs `apply_stores` as folds of the steps above. -/
def apply_stores (s : Kernel) (eff : Effector) (id : ComponentID) : Kernel :=
  let path := full_path s.components id
  let s1 := eff.store.int_data.foldl (store_int_step path) s
  let s2 := eff.store.float_data.foldl (store_float_step path) s1
  eff.store.string_data.foldl (store_string_step path) s2

/-- simulation.rs `apply_effects`.  (`apply_logs` only prints to stdout and
changes no kernel state, so it does not appear.) -/
def apply_effects (s : Kernel) (id : ComponentID) (eff : Effector) : Kernel :=
  if s.failed.isSome then s
  else
    let s1 := apply_events s eff.events
    let s2 := apply_stores s1 eff id
    if eff.removed then remove_components s2 id (s2.components.length + 1) else s2

/-- `BinaryHeap::peek().time` over the pending entries: the minimum time. -/
def minTime : List ScheduledEvent → Time
  | [] => 0
  | e :: rest => rest.foldl (fun m x => min m x.time) e.time

/-- One iteration of `dispatch_events`' send loop: update the finger print
and event counter, record the delivery, and hand the event to the target's
worker — panicking (`InactiveTarget`) if the target has no event sender. -/
def sendOne (acc : Kernel × List (ComponentID × Effector)) (e : ScheduledEvent) :
    Kernel × List (ComponentID × Effector) :=
  if acc.1.failed.isSome then acc
  else
    match acc.1.workers e.target with
    | some w =>
      ({ acc.1 with
          finger_print :=
            update_finger_print acc.1.finger_print e.time e.target (nameBytes e.event.name),
          event_num := acc.1.event_num + 1,
          trace := acc.1.trace ++ [(e.time, e.target, e.event.name)] },
        acc.2 ++ [(e.target, w e.event)])
    | none =>
      ({ acc.1 with
          finger_print :=
            update_finger_print acc.1.finger_print e.time e.target (nameBytes e.event.name),
          event_num := acc.1.event_num + 1,
          trace := acc.1.trace ++ [(e.time, e.target, e.event.name)],
          failed := some .inactiveTarget }, acc.2)

/-- One insertion of the stable sort below: `x` goes after every element
whose component id is less than or equal to its own. -/
def insertById (x : ComponentID × Effector) :
    List (ComponentID × Effector) → List (ComponentID × Effector)
  | [] => [x]
  | y :: ys => if y.1 ≤ x.1 then y :: insertById x ys else x :: y :: ys

/-- Rust `effects.sort_by(|a, b| a.0.cmp(&b.0))`: a stable sort on the
component id (insertion sort; stable because equal ids keep their relative
order). -/
def sortById (l : List (ComponentID × Effector)) : List (ComponentID × Effector) :=
  l.foldl (fun acc x => insertById x acc) []

/-- The body of `dispatch_events`' effect-application loop: apply one
received effector and record the exit reason if its exit flag is set. -/
def dispatch_apply_step (s : Kernel) (ie : ComponentID × Effector) : Kernel :=
  if s.failed.isSome then s
  else
    let t := apply_effects s ie.1 ie.2
    if t.failed.isSome then t
    else if ie.2.exit then { t with exited := some "effector.exit was called" }
    else t

/-- simulation.rs `dispatch_events`: set `current_time` to the earliest
scheduled time, drain every entry with that time (heap tie order is
unspecified; the model drains in list order), collect one effector per
dispatched entry, sort the effectors by component id (stable), and apply
them, recording the exit reason when an effector's exit flag is set. -/
def dispatch_events (s : Kernel) : Kernel :=
  if s.failed.isSome then s
  else
    match s.scheduled with
    | [] => { s with failed := some (.assertFailed "scheduled.peek().unwrap()") }
    | _ :: _ =>
      let t := minTime s.scheduled
      let batch := s.scheduled.filter (fun e => e.time = t)
      let rest := s.scheduled.filter (fun e => ¬ e.time = t)
      let s1 := { s with current_time := t, scheduled := rest }
      let sent := batch.foldl sendOne (s1, [])
      let sorted := sortById sent.2
      sorted.foldl dispatch_apply_step sent.1

/-- simulation.rs `run_time_slice`: asserts not yet exited; exit with
`"no events"` on an empty scheduler, with `"reached config.max_secs"` once
`current_time >= max_time`, else run one dispatch pass. -/
def run_time_slice (s : Kernel) : Kernel :=
  if s.failed.isSome then s
  else if s.exited.isSome then { s with failed := some (.assertFailed "exited.is_none()") }
  else if s.scheduled.isEmpty then { s with exited := some "no events" }
  else if max_time s.cfg ≤ s.current_time then
    { s with exited := some "reached config.max_secs" }
  else dispatch_events s

/-- simulation.rs `schedule_init_stage`: schedule `Event("init k")` at time
0 for every component that has an event sender (`event_senders` has one slot
per component, so the loop bound is the component count), then assert that
the scheduler is non-empty. -/
def init_sched_step (name : String) (s : Kernel) (i : Nat) : Kernel :=
  if (s.workers i).isSome then s.schedule ⟨name, ""⟩ i 0 else s

/-- simulation.rs `schedule_init_stage` as a fold of the step above. -/
def schedule_init_stage (s : Kernel) (stage : Nat) : Kernel :=
  let name := "init " ++ toString stage
  let s1 := (List.range s.components.length).foldl (init_sched_step name) s
  if s1.scheduled.isEmpty then
    { s1 with failed := some (.assertFailed "!scheduled.is_empty()") }
  else s1

/-- One iteration of `init_components`' loop: schedule the stage's init
events, dispatch, assert the time is still 0, and rewrite any exit
requested during initialization. -/
def init_stage_step (s : Kernel) (i : Nat) : Kernel :=
  if s.failed.isSome then s
  else
    let s1 := dispatch_events (schedule_init_stage s i)
    let s2 :=
      if s1.current_time = 0 then s1
      else { s1 with failed := some (.assertFailed "current_time.0 == 0") }
    if s2.failed.isSome then s2
    else if s2.exited.isSome then
      { s2 with exited := some "Effector.exit was called during initialization" }
    else s2

/-- simulation.rs `init_components`: assert not exited; then for each stage
k in `0 .. num_init_stages`, schedule the stage's init events, run one
dispatch pass, assert the time is still 0, and rewrite any exit requested
during initialization. -/
def init_components (s : Kernel) : Kernel :=
  if s.exited.isSome then { s with failed := some (.assertFailed "exited.is_none()") }
  else
    (List.range s.cfg.num_init_stages).foldl init_stage_step s

/-- simulation.rs `Simulation::apply`: `assert!(!effects.exit)`, then apply
the effector. -/
def Simulation.apply (s : Kernel) (id : ComponentID) (eff : Effector) : Kernel :=
  if s.failed.isSome then s
  else if eff.exit then { s with failed := some (.assertFailed "!effects.exit") }
  else apply_effects s id eff

/-- simulation.rs `Simulation::configure`: run the callback over every
component in insertion (= id) order, asserting no produced effector has
the exit flag; only after the whole first loop succeeds are the effectors
applied. -/
def configure_step (cb : ComponentID → Component → Effector)
    (acc : Kernel × List (ComponentID × Effector)) (ic : ComponentID × Component) :
    Kernel × List (ComponentID × Effector) :=
  if acc.1.failed.isSome then acc
  else
    let eff := cb ic.1 ic.2
    if eff.exit then ({ acc.1 with failed := some (.assertFailed "!effector.exit") }, acc.2)
    else (acc.1, acc.2 ++ [(ic.1, eff)])

/-- The application loop shared shape of `Simulation::configure`. -/
def configure_apply_step (s : Kernel) (ie : ComponentID × Effector) : Kernel :=
  if s.failed.isSome then s else apply_effects s ie.1 ie.2

/-- simulation.rs `Simulation::configure` as folds of the steps above. -/
def Simulation.configure (s : Kernel) (cb : ComponentID → Component → Effector) : Kernel :=
  let built := s.components.enum.foldl (configure_step cb) (s, [])
  built.2.foldl configure_apply_step built.1

/-- The component ids that have an event sender (`event_senders[i].is_some()`),
in id order — the components `schedule_init_stage` schedules to. -/
def activeIds (s : Kernel) : List ComponentID :=
  (List.range s.components.length).filter (fun i => (s.workers i).isSome)

/-- Observation predicate for the dispatch machinery: fields the effect
application phase never changes, that workers only get installed (never
uninstalled), and that every new scheduler entry lies strictly in the
future. -/
def Steps (s t : Kernel) : Prop :=
  t.components = s.components ∧ t.cfg = s.cfg ∧ t.current_time = s.current_time ∧
  t.trace = s.trace ∧ (∀ i, (s.workers i).isSome → (t.workers i).isSome) ∧
  (∀ e ∈ t.scheduled, e ∈ s.scheduled ∨ s.current_time + 1 ≤ e.time)

/-- A config with `time_units = 2^53`, legal per config.rs (`time_units` is
any positive f64); `2^53` is exactly representable. -/
def cfg53 : Config := ⟨2 ^ 53, 0, true, 1⟩

/-- Concrete kernel state for the C7 instance: a non-empty scheduler and
`current_time` at the i64 limit (`max_secs` infinite). -/
def exC7 : Kernel := {
  store := Store.new,
  components := [⟨"root", NO_COMPONENT, []⟩],
  workers := fun _ => none,
  cfg := ⟨1000, 0, true, 1⟩,
  current_time := i64Max,
  exited := none,
  scheduled := [⟨i64Max, 0, ⟨"tick", ""⟩⟩],
  event_num := 0,
  finger_print := 0,
  trace := [],
  failed := none }

/-- Concrete component tree for the C9 instance: root `a` with child
`bcdef`, so the child's full path `a.bcdef` (7 chars) exceeds the
`max_log_path = 3` cap. -/
def exC9 : Components := ⟨[⟨"a", NO_COMPONENT, [1]⟩, ⟨"bcdef", 0, []⟩], 3⟩

/-- A worker answering every event with an empty effector. -/
def quietWorker : Worker := fun _ => Effector.new

/-- Concrete kernel for the C3 instance: one active component, one init
stage, nothing pre-scheduled. -/
def exK3 : Kernel := {
  store := Store.new,
  components := [⟨"root", NO_COMPONENT, []⟩],
  workers := fun i => if i = 0 then some quietWorker else none,
  cfg := ⟨1000000, 0, true, 1⟩,
  current_time := 0,
  exited := none,
  scheduled := [],
  event_num := 0,
  finger_print := 0,
  trace := [],
  failed := none }

/-- Concrete kernel for the C4/C5 instances: root `a` (active) with child
`b` (passive), empty store. -/
def exK5 : Kernel := {
  store := Store.new,
  components := [⟨"a", NO_COMPONENT, [1]⟩, ⟨"b", 0, []⟩],
  workers := fun i => if i = 0 then some quietWorker else none,
  cfg := ⟨1000000, 0, true, 1⟩,
  current_time := 7,
  exited := none,
  scheduled := [],
  event_num := 0,
  finger_print := 0,
  trace := [],
  failed := none }

/-- Concrete kernel for the C10 instance. -/
def exK10 : Kernel := {
  store := Store.new,
  components := [⟨"a", NO_COMPONENT, []⟩],
  workers := fun _ => none,
  cfg := ⟨1000000, 0, true, 1⟩,
  current_time := 0,
  exited := none,
  scheduled := [],
  event_num := 0,
  finger_print := 0,
  trace := [],
  failed := none }

/-- An effector that only requests exit. -/
def exitEffector : Effector := { Effector.new with exit := true }

/-! ### Association-list lemmas -/

theorem find?_eraseP_of_ne {α : Type} (m : KVMap α) (k k' : String) (h : ¬ k' = k) :
    (m.eraseP (fun e => e.1 = k')).find? (fun e => e.1 = k) =
      m.find? (fun e => e.1 = k) := by
  induction m with
  | nil => rfl
  | cons e m ih =>
    by_cases he : e.1 = k'
    · rw [List.eraseP_cons_of_pos (by simpa using he)]
      have : ¬ e.1 = k := by rw [he]; exact h
      rw [List.find?_cons_of_neg _ (by simpa using this)]
    · rw [List.eraseP_cons_of_neg (by simpa using he)]
      by_cases hk : e.1 = k
      · rw [List.find?_cons_of_pos _ (by simpa using hk),
          List.find?_cons_of_pos _ (by simpa using hk)]
      · rw [List.find?_cons_of_neg _ (by simpa using hk),
          List.find?_cons_of_neg _ (by simpa using hk), ih]

theorem mapLookup_insert_self {α : Type} (m : KVMap α) (k : String) (v : Time × α) :
    mapLookup (mapInsert m k v) k = some v := by
  unfold mapLookup mapInsert
  rw [List.find?_cons_of_pos _ (by simp)]
  rfl

theorem mapLookup_insert_of_ne {α : Type} (m : KVMap α) (k k' : String) (v : Time × α)
    (h : ¬ k' = k) : mapLookup (mapInsert m k' v) k = mapLookup m k := by
  unfold mapLookup mapInsert
  rw [List.find?_cons_of_neg _ (by simpa using h), find?_eraseP_of_ne m k k' h]

/-! ### C1 -/

/-- C1 (amended): in the src store setters (all six share the `set_typed`
body), any second write to a key holding an entry with the same write_time
is the fatal already-set panic — even when the value written is identical —
while a write over an entry with a different write_time overwrites, and a
write to an absent key inserts.  Shown generically and for the named
`Store::set_int_setting`. -/
theorem set_typed_same_time_panics {α : Type} (m : KVMap α) (s : Store) (key : String)
    (v v₀ : α) (iv iv₀ : Int) (t t₀ : Time) :
    (mapLookup m key = some (t, v₀) → set_typed m key v t = .error .alreadySet) ∧
    (mapLookup m key = some (t₀, v₀) → ¬ t₀ = t →
      set_typed m key v t = .ok (mapInsert m key (t, v))) ∧
    (mapLookup m key = none → set_typed m key v t = .ok (mapInsert m key (t, v))) ∧
    (mapLookup s.int_settings key = some (t, iv₀) →
      s.set_int_setting key iv t = .error .alreadySet) := by
  refine ⟨?_, ?_, ?_, ?_⟩
  · intro h
    unfold set_typed
    rw [h]
    simp
  · intro h hne
    unfold set_typed
    rw [h]
    simp [hne]
  · intro h
    unfold set_typed
    rw [h]
  · intro h
    unfold Store.set_int_setting set_typed
    rw [h]
    simp [Except.map]

/-- C1 counterexample: with `int_settings = {"weight" ↦ (0, 120)}`, writing
the very same `("weight", 120)` at the very same time 0 again is the fatal
already-set panic, not the accepted no-op the claim states. -/
theorem set_typed_same_value_rewrite_rejected :
    Store.new.set_int_setting "weight" 120 0 =
      .ok { Store.new with int_settings := [("weight", ((0 : Time), (120 : Int)))] } ∧
    ({ Store.new with int_settings := [("weight", ((0 : Time), (120 : Int)))] } :
        Store).set_int_setting "weight" 120 0 = .error .alreadySet := by
  constructor <;> rfl

/-- C1 witness. -/
theorem set_typed_same_time_panics_witness :
    mapLookup [("k", ((0 : Time), (1 : Int)))] "k" = some (0, 1) ∧
    set_typed [("k", ((0 : Time), (1 : Int)))] "k" (1 : Int) 0 = .error .alreadySet := by
  refine ⟨by decide, ?_⟩
  exact (set_typed_same_time_panics [("k", ((0 : Time), (1 : Int)))] Store.new "k"
    (1 : Int) (1 : Int) 0 0 0 0).1 (by decide)

/-! ### C8 -/

/-- C8 (amended): the src `Store` setters perform no key validation — an
empty key is accepted and silently inserted (there is no InvalidKey path in
src/store.rs); the empty-key guard is the `assert!(!name.is_empty())` in
`Effector::set_int/set_float/set_string`, and the spec-modelled kernel-side
`Store::set_int` also rejects empty keys. -/
theorem empty_key_accepted_by_store_setters (e : Effector) (m : KVMap Int)
    (v value : Int) (vf : Rat) (vs : String) (t : Time) :
    (e.set_int "" v = .error (.assertFailed "name should not be empty")) ∧
    (e.set_float "" vf = .error (.assertFailed "name should not be empty")) ∧
    (e.set_string "" vs = .error (.assertFailed "name should not be empty")) ∧
    (mapLookup m "" = none → set_typed m "" value t = .ok (mapInsert m "" (t, value))) ∧
    (Store.new.set_int "" value t = .error .invalidKey) := by
  refine ⟨rfl, rfl, rfl, ?_, rfl⟩
  intro h
  unfold set_typed
  rw [h]

/-- C8 counterexample: `set_int_setting` with the empty key succeeds and the
empty key is inserted — no InvalidKey failure occurs. -/
theorem empty_key_silently_inserted :
    Store.new.set_int_setting "" 0 0 =
      .ok { Store.new with int_settings := [("", ((0 : Time), (0 : Int)))] } ∧
    mapLookup ({ Store.new with int_settings := [("", ((0 : Time), (0 : Int)))] } :
        Store).int_settings "" = some (0, 0) := by
  constructor <;> rfl

/-- C8 witness. -/
theorem empty_key_accepted_by_store_setters_witness :
    mapLookup ([] : KVMap Int) "" = none ∧
    set_typed ([] : KVMap Int) "" (5 : Int) 3 = .ok (mapInsert [] "" (3, 5)) := by
  refine ⟨by decide, ?_⟩
  exact (empty_key_accepted_by_store_setters Effector.new [] 5 5 0 "" 3).2.2.2.1 (by decide)

/-! ### C6 -/

theorem foldl_u64add (l : List Nat) (x : Nat) :
    l.foldl u64add (x % 2 ^ 64) = (x + l.sum) % 2 ^ 64 := by
  induction l generalizing x with
  | nil => simp
  | cons b l ih =>
    rw [List.foldl_cons, show u64add (x % 2 ^ 64) b = (x + b) % 2 ^ 64 by
      unfold u64add; rw [Nat.mod_add_mod], ih, List.sum_cons]
    ring_nf

theorem take_min_eight (l : List Nat) : l.take (min l.length 8) = l.take 8 := by
  rw [min_comm, ← List.take_take, List.take_length]

/-- C6: the finger-print accumulator advances, with wrapping 64-bit
addition, by the entry's time (as u64) plus its target id plus the sum of
the first `min(8, length)` bytes of the event name; consequently two event
names that agree on their first 8 bytes contribute identically, so renaming
an event beyond its 8th byte never changes the finger-print. -/
theorem update_finger_print_closed_form (fp : Nat) (t : Time) (target : ComponentID)
    (b₁ b₂ : List Nat) :
    update_finger_print fp t target b₁ =
      (fp + (t % (2 ^ 64 : Int)).toNat + target + (b₁.take 8).sum) % 2 ^ 64 ∧
    (b₁.take 8 = b₂.take 8 →
      update_finger_print fp t target b₁ = update_finger_print fp t target b₂) := by
  have closed : ∀ b : List Nat, update_finger_print fp t target b =
      (fp + (t % (2 ^ 64 : Int)).toNat + target + (b.take 8).sum) % 2 ^ 64 := by
    intro b
    show u64add fp ((b.take (min b.length 8)).foldl u64add
      (u64add ((t % (2 ^ 64 : Int)).toNat) target)) = _
    rw [take_min_eight]
    have h1 : u64add ((t % (2 ^ 64 : Int)).toNat) target =
        ((t % (2 ^ 64 : Int)).toNat + target) % 2 ^ 64 := rfl
    rw [h1, foldl_u64add]
    show (fp + ((t % (2 ^ 64 : Int)).toNat + target + (b.take 8).sum) % 2 ^ 64) % 2 ^ 64 = _
    rw [Nat.add_mod_mod]
    congr 1
    ring
  refine ⟨closed b₁, fun h => ?_⟩
  rw [closed b₁, closed b₂, h]

/-- C6 witness: two 9-byte names agreeing on their first 8 bytes. -/
theorem update_finger_print_closed_form_witness :
    ([1, 2, 3, 4, 5, 6, 7, 8, 9] : List Nat).take 8 =
      ([1, 2, 3, 4, 5, 6, 7, 8, 42] : List Nat).take 8 ∧
    update_finger_print 10 3 2 [1, 2, 3, 4, 5, 6, 7, 8, 9] =
      update_finger_print 10 3 2 [1, 2, 3, 4, 5, 6, 7, 8, 42] := by
  refine ⟨by decide, ?_⟩
  exact (update_finger_print_closed_form 10 3 2 [1, 2, 3, 4, 5, 6, 7, 8, 9]
    [1, 2, 3, 4, 5, 6, 7, 8, 42]).2 (by decide)

/-! ### C2 -/

/-- C2 (amended): every delivery time that `add_secs` computes is at least
`current_time + 1` tick; for `schedule_after_secs` (which asserts
`secs > 0`) the delivery time is exactly
`current_time + max(1, floor(secs × time_units))`; `schedule_immediately`
pushes its event with `secs = f64::EPSILON`, which yields exactly
`current_time + 1` whenever `time_units < 2^53` — but not for larger
`time_units` (see the counterexample). -/
theorem add_secs_delivery (cfg : Config) (current : Time) (secs : Rat)
    (e : Effector) (event : Event) (target : ComponentID) :
    (current + 1 ≤ add_secs cfg current secs) ∧
    (0 < cfg.time_units → 0 < secs →
      add_secs cfg current secs = current + max 1 ⌊secs * cfg.time_units⌋) ∧
    (0 < cfg.time_units → cfg.time_units < 2 ^ 53 →
      add_secs cfg current f64EPSILON = current + 1) ∧
    (¬ target = NO_COMPONENT →
      e.schedule_immediately event target =
        .ok { e with events := e.events ++ [(target, event, f64EPSILON)] }) := by
  refine ⟨?_, ?_, ?_, ?_⟩
  · show current + 1 ≤ if 0 < ratTrunc (secs * cfg.time_units) then
      current + ratTrunc (secs * cfg.time_units) else current + 1
    split
    case isTrue h => linarith
    case isFalse h => linarith
  · intro htu hs
    have hq : (0 : Rat) ≤ secs * cfg.time_units := le_of_lt (mul_pos hs htu)
    have hfl : 0 ≤ ⌊secs * cfg.time_units⌋ := Int.floor_nonneg.mpr hq
    unfold add_secs ratTrunc
    rw [if_pos hq]
    by_cases h : 0 < ⌊secs * cfg.time_units⌋
    · rw [if_pos h, max_eq_right (by omega)]
    · rw [if_neg h]
      have h0 : ⌊secs * cfg.time_units⌋ = 0 := by omega
      rw [h0]
      simp
  · intro htu hlt
    have heq : f64EPSILON * cfg.time_units = cfg.time_units / 2 ^ 52 := by
      rw [f64EPSILON, one_div_mul_eq_div]
    have hq : (0 : Rat) ≤ f64EPSILON * cfg.time_units :=
      le_of_lt (mul_pos (by norm_num [f64EPSILON]) htu)
    have hlt2 : f64EPSILON * cfg.time_units < 2 := by
      rw [heq, div_lt_iff₀ (by norm_num)]
      calc cfg.time_units < 2 ^ 53 := hlt
        _ = 2 * 2 ^ 52 := by norm_num
    have hfl : 0 ≤ ⌊f64EPSILON * cfg.time_units⌋ := Int.floor_nonneg.mpr hq
    have hfl2 : ⌊f64EPSILON * cfg.time_units⌋ < 2 := by
      apply Int.floor_lt.mpr
      push_cast
      exact hlt2
    unfold add_secs ratTrunc
    rw [if_pos hq]
    by_cases h : 0 < ⌊f64EPSILON * cfg.time_units⌋
    · have h1 : ⌊f64EPSILON * cfg.time_units⌋ = 1 := by omega
      rw [if_pos h, h1]
    · rw [if_neg h]
  · intro ht
    unfold Effector.schedule_immediately
    rw [if_neg ht]

/-- C2 counterexample: with `time_units = 2^53` (a legal positive value),
`schedule_immediately`'s event — pushed with `secs = f64::EPSILON` — is
delivered at `current_time + 2`, not exactly `current_time + 1`. -/
theorem schedule_immediately_two_ticks :
    Effector.new.schedule_immediately ⟨"ev", ""⟩ 0 =
      .ok { Effector.new with events := [(0, ⟨"ev", ""⟩, f64EPSILON)] } ∧
    add_secs cfg53 0 f64EPSILON = 2 ∧ ¬ ((2 : Time) = 0 + 1) := by
  refine ⟨rfl, ?_, by decide⟩
  have h2 : f64EPSILON * cfg53.time_units = 2 := by
    norm_num [f64EPSILON, cfg53]
  unfold add_secs ratTrunc
  rw [h2]
  norm_num

/-- C2 witness. -/
theorem add_secs_delivery_witness :
    (0 : Rat) < 1000000 ∧ (0 : Rat) < 1 ∧
    add_secs ⟨1000000, 0, true, 1⟩ 5 1 = 5 + max 1 ⌊(1 : Rat) * 1000000⌋ := by
  refine ⟨by decide, by decide, ?_⟩
  exact (add_secs_delivery ⟨1000000, 0, true, 1⟩ 5 1 Effector.new ⟨"e", ""⟩ 0).2.1
    (by decide) (by decide)

/-! ### C7 -/

/-- C7 (amended): when the main loop finds the scheduler non-empty but
`current_time ≥ max_time` it stops the simulation with exited set to the
string "reached config.max_secs" (not "reached max_secs"); the four exit
reason strings in the source are "no events", "reached config.max_secs",
"effector.exit was called" and "Effector.exit was called during
initialization". -/
theorem reached_max_secs_exit (s : Kernel) (h1 : s.failed = none)
    (h2 : s.exited = none) (h3 : ¬ s.scheduled = [])
    (h4 : max_time s.cfg ≤ s.current_time) :
    run_time_slice s = { s with exited := some "reached config.max_secs" } := by
  have hemp : s.scheduled.isEmpty = false := by
    cases hsch : s.scheduled with
    | nil => exact absurd hsch h3
    | cons a l => rfl
  unfold run_time_slice
  rw [h1, h2, hemp]
  simp only [Option.isSome_none, Bool.false_eq_true, if_false, if_pos h4]

/-- C7 counterexample: the exit reason string is "reached config.max_secs",
not the claim's "reached max_secs". -/
theorem reached_config_max_secs_string :
    (run_time_slice exC7).exited = some "reached config.max_secs" ∧
    ¬ (run_time_slice exC7).exited = some "reached max_secs" := by
  constructor
  · rfl
  · intro h
    rw [show (run_time_slice exC7).exited = some "reached config.max_secs" from rfl] at h
    simp at h

/-- C7 witness. -/
theorem reached_max_secs_exit_witness :
    exC7.failed = none ∧ exC7.exited = none ∧ ¬ exC7.scheduled = [] ∧
    max_time exC7.cfg ≤ exC7.current_time ∧
    run_time_slice exC7 = { exC7 with exited := some "reached config.max_secs" } := by
  refine ⟨rfl, rfl, by simp [exC7], le_refl _, ?_⟩
  exact reached_max_secs_exit exC7 rfl rfl (by simp [exC7]) (le_refl _)

/-! ### C9 -/

/-- C9 (amended): `Components::display_path` only right-pads the full path
with spaces to `max_log_path` and never truncates; the behavior the claim
describes — padding to the longest registered path length capped at
`config.max_log_path`, with left truncation and a single ellipsis prefix
when the path exceeds the cap (cap 0 meaning unlimited) — is
`Simulation::logged_path`. -/
theorem logged_path_matches_claimed (path : String) (largest cap : Nat)
    (c : Components) (id : ComponentID) (h : path.length ≤ largest) :
    logged_path_fmt path largest cap = display_path_claimed path largest cap ∧
    Components.display_path c id = padTo (full_path c.components id) c.max_log_path := by
  refine ⟨?_, rfl⟩
  unfold logged_path_fmt display_path_claimed
  by_cases hc : 0 < cap
  · by_cases hl : cap < largest
    · rw [if_pos ⟨hc, hl⟩]
      by_cases hp : cap < path.length
      · rw [if_pos hp, if_pos ⟨hc, hp⟩]
      · rw [if_neg hp, if_neg (fun hand => hp hand.2), if_neg (by omega),
          min_eq_right (le_of_lt hl)]
    · have hple : ¬ cap < path.length := by omega
      rw [if_neg (fun hand => hl hand.2), if_neg (fun hand => hple hand.2),
        if_neg (by omega), min_eq_left (by omega)]
  · have hc0 : cap = 0 := by omega
    rw [if_neg (fun hand => hc hand.1), if_neg (fun hand => hc hand.1), if_pos hc0]

/-- C9 counterexample: for the tree root `a` with child `bcdef` and
`max_log_path = 3`, the child's `display_path` is the unpadded, untruncated
full path `a.bcdef` — not the left-truncated ellipsis form `…def` the claim
describes. -/
theorem display_path_no_truncation :
    Components.display_path exC9 1 = "a.bcdef" ∧
    display_path_claimed (full_path exC9.components 1) 7 3 = "…def" ∧
    ¬ ("a.bcdef" = "…def") := by
  refine ⟨rfl, rfl, by decide⟩

/-- C9 witness. -/
theorem logged_path_matches_claimed_witness :
    ("a.bcdef").length ≤ 7 ∧
    (logged_path_fmt "a.bcdef" 7 3 = display_path_claimed "a.bcdef" 7 3 ∧
      Components.display_path exC9 1 = padTo (full_path exC9.components 1) exC9.max_log_path) :=
  ⟨by decide, logged_path_matches_claimed "a.bcdef" 7 3 exC9 1 (by decide)⟩

/-! ### C10 -/

theorem configure_apply_fold_id (l : List (ComponentID × Effector)) (s : Kernel)
    (h : s.failed.isSome = true) : l.foldl configure_apply_step s = s := by
  induction l with
  | nil => rfl
  | cons ie l ih =>
    rw [List.foldl_cons, show configure_apply_step s ie = s by
      unfold configure_apply_step; rw [if_pos h], ih]

theorem configure_build_sticky (cb : ComponentID → Component → Effector)
    (l : List (ComponentID × Component)) (acc : Kernel × List (ComponentID × Effector))
    (h : acc.1.failed.isSome = true) : l.foldl (configure_step cb) acc = acc := by
  induction l with
  | nil => rfl
  | cons ic l ih =>
    rw [List.foldl_cons, show configure_step cb acc ic = acc by
      unfold configure_step; rw [if_pos h], ih]

theorem configure_build_panics (cb : ComponentID → Component → Effector)
    (l : List (ComponentID × Component)) :
    ∀ acc : Kernel × List (ComponentID × Effector), acc.1.failed = none →
      (∃ ic ∈ l, (cb ic.1 ic.2).exit = true) →
      (l.foldl (configure_step cb) acc).1 =
        { acc.1 with failed := some (.assertFailed "!effector.exit") } := by
  induction l with
  | nil => intro acc h1 hex; simp at hex
  | cons ic l ih =>
    intro acc h1 hex
    rw [List.foldl_cons]
    by_cases he : (cb ic.1 ic.2).exit = true
    · have hstep : configure_step cb acc ic =
          ({ acc.1 with failed := some (.assertFailed "!effector.exit") }, acc.2) := by
        unfold configure_step
        rw [h1]
        simp [he]
      rw [hstep, configure_build_sticky cb l _ (by simp)]
    · have hstep : configure_step cb acc ic = (acc.1, acc.2 ++ [(ic.1, cb ic.1 ic.2)]) := by
        unfold configure_step
        rw [h1]
        simp [he]
      rw [hstep]
      refine ih _ h1 ?_
      rcases hex with ⟨ic', hin, hex'⟩
      rcases List.mem_cons.mp hin with h | h
      · exact absurd (h ▸ hex') he
      · exact ⟨ic', h, hex'⟩

/-- C10: `Simulation::apply` asserts the effector's exit flag is unset — an
effector with `exit = true` panics the assertion before any effect is
applied — and `Simulation::configure` asserts the same for every
per-component effector during its build loop, before applying any of them;
so `Effector::exit` can only take effect through the run loop's dispatch,
never during setup. -/
theorem setup_asserts_no_exit (s : Kernel) (id : ComponentID) (eff : Effector)
    (cb : ComponentID → Component → Effector) :
    (s.failed = none → eff.exit = true →
      Simulation.apply s id eff = { s with failed := some (.assertFailed "!effects.exit") }) ∧
    (s.failed = none → (∃ ic ∈ s.components.enum, (cb ic.1 ic.2).exit = true) →
      Simulation.configure s cb =
        { s with failed := some (.assertFailed "!effector.exit") }) := by
  constructor
  · intro h1 h2
    unfold Simulation.apply
    rw [h1, h2]
    simp
  · intro h1 hex
    show (s.components.enum.foldl (configure_step cb) (s, [])).2.foldl configure_apply_step
      (s.components.enum.foldl (configure_step cb) (s, [])).1 = _
    rw [configure_build_panics cb s.components.enum (s, []) h1 hex,
      configure_apply_fold_id _ _ (by simp)]

/-- C10 witness. -/
theorem setup_asserts_no_exit_witness :
    exK10.failed = none ∧ exitEffector.exit = true ∧
    (∃ ic ∈ exK10.components.enum, ((fun _ _ => exitEffector) ic.1 ic.2).exit = true) ∧
    Simulation.apply exK10 0 exitEffector =
      { exK10 with failed := some (.assertFailed "!effects.exit") } ∧
    Simulation.configure exK10 (fun _ _ => exitEffector) =
      { exK10 with failed := some (.assertFailed "!effector.exit") } := by
  refine ⟨rfl, rfl, ⟨(0, ⟨"a", NO_COMPONENT, []⟩), by decide, rfl⟩, ?_, ?_⟩
  · exact (setup_asserts_no_exit exK10 0 exitEffector (fun _ _ => exitEffector)).1 rfl rfl
  · exact (setup_asserts_no_exit exK10 0 exitEffector (fun _ _ => exitEffector)).2 rfl
      ⟨(0, ⟨"a", NO_COMPONENT, []⟩), by decide, rfl⟩

/-! ### remove_components lemmas (C4, C5) -/

theorem remove_components_failed (fuel : Nat) (s : Kernel) (id : ComponentID)
    (hf : s.failed.isSome = true) : remove_components s id fuel = s := by
  cases fuel with
  | zero => unfold remove_components; rw [if_pos hf]
  | succ n => unfold remove_components; rw [if_pos hf]

theorem removeFold_failed (n : Nat) (l : List ComponentID) (s : Kernel)
    (hf : s.failed.isSome = true) :
    l.foldl (fun acc child => remove_components acc child n) s = s := by
  induction l with
  | nil => rfl
  | cons c l ih => rw [List.foldl_cons, remove_components_failed n s c hf, ih]

theorem remove_components_succ (s : Kernel) (id : ComponentID) (n : Nat) (c : Component)
    (hf : s.failed = none) (hg : s.components.get? id = some c) :
    remove_components s id (n + 1) =
      c.children.foldl (fun acc child => remove_components acc child n)
        (kstoreWrite (install_removed_thread s id)
          (fun st => st.set_int (full_path s.components id ++ ".removed") 1
            s.current_time)) := by
  show (if s.failed.isSome then s
    else match s.components.get? id with
      | none => { s with failed := some (.assertFailed "invalid component id") }
      | some c =>
        c.children.foldl (fun acc child => remove_components acc child n)
          (kstoreWrite (install_removed_thread s id)
            (fun st => st.set_int
              (full_path (install_removed_thread s id).components id ++ ".removed") 1
              (install_removed_thread s id).current_time))) = _
  rw [hf, hg]
  rfl

theorem kstoreWrite_fields (s : Kernel) (f : Store → Except Err Store) :
    (kstoreWrite s f).components = s.components ∧
    (kstoreWrite s f).current_time = s.current_time ∧
    (kstoreWrite s f).cfg = s.cfg ∧
    (kstoreWrite s f).scheduled = s.scheduled ∧
    (kstoreWrite s f).trace = s.trace ∧
    (kstoreWrite s f).exited = s.exited ∧
    (kstoreWrite s f).workers = s.workers := by
  unfold kstoreWrite
  split
  · exact ⟨rfl, rfl, rfl, rfl, rfl, rfl, rfl⟩
  · split <;> exact ⟨rfl, rfl, rfl, rfl, rfl, rfl, rfl⟩

theorem remove_components_preserves (fuel : Nat) :
    ∀ (s : Kernel) (id : ComponentID),
      (remove_components s id fuel).components = s.components ∧
      (remove_components s id fuel).current_time = s.current_time ∧
      (remove_components s id fuel).cfg = s.cfg ∧
      (remove_components s id fuel).scheduled = s.scheduled ∧
      (remove_components s id fuel).trace = s.trace ∧
      (remove_components s id fuel).exited = s.exited := by
  induction fuel with
  | zero =>
    intro s id
    unfold remove_components
    split <;> exact ⟨rfl, rfl, rfl, rfl, rfl, rfl⟩
  | succ n ih =>
    have hfold : ∀ (l : List ComponentID) (s : Kernel),
        ((l.foldl (fun acc child => remove_components acc child n) s).components =
          s.components ∧
        (l.foldl (fun acc child => remove_components acc child n) s).current_time =
          s.current_time ∧
        (l.foldl (fun acc child => remove_components acc child n) s).cfg = s.cfg ∧
        (l.foldl (fun acc child => remove_components acc child n) s).scheduled =
          s.scheduled ∧
        (l.foldl (fun acc child => remove_components acc child n) s).trace = s.trace ∧
        (l.foldl (fun acc child => remove_components acc child n) s).exited = s.exited) := by
      intro l
      induction l with
      | nil => intro s; exact ⟨rfl, rfl, rfl, rfl, rfl, rfl⟩
      | cons c l ihl =>
        intro s
        rw [List.foldl_cons]
        obtain ⟨h1, h2, h3, h4, h5, h6⟩ := ihl (remove_components s c n)
        obtain ⟨g1, g2, g3, g4, g5, g6⟩ := ih s c
        exact ⟨h1.trans g1, h2.trans g2, h3.trans g3, h4.trans g4, h5.trans g5, h6.trans g6⟩
    intro s id
    by_cases hf : s.failed.isSome
    · rw [remove_components_failed _ _ _ hf]
      exact ⟨rfl, rfl, rfl, rfl, rfl, rfl⟩
    · have hf' : s.failed = none := Option.not_isSome_iff_eq_none.mp hf
      cases hg : s.components.get? id with
      | none =>
        unfold remove_components
        rw [if_neg hf, hg]
        exact ⟨rfl, rfl, rfl, rfl, rfl, rfl⟩
      | some c =>
        rw [remove_components_succ s id n c hf' hg]
        obtain ⟨h1, h2, h3, h4, h5, h6⟩ := hfold c.children
          (kstoreWrite (install_removed_thread s id)
            (fun st => st.set_int (full_path s.components id ++ ".removed") 1
              s.current_time))
        obtain ⟨k1, k2, k3, k4, k5, k6, k7⟩ := kstoreWrite_fields (install_removed_thread s id)
          (fun st => st.set_int (full_path s.components id ++ ".removed") 1 s.current_time)
        exact ⟨h1.trans k1, h2.trans k2, h3.trans k3, h4.trans k4, h5.trans k5, h6.trans k6⟩

theorem remove_components_workers (fuel : Nat) :
    ∀ (s : Kernel) (id d : ComponentID),
      (remove_components s id fuel).workers d = s.workers d ∨
      (remove_components s id fuel).workers d = some noOpWorker := by
  induction fuel with
  | zero =>
    intro s id d
    unfold remove_components
    split <;> exact Or.inl rfl
  | succ n ih =>
    have hfold : ∀ (l : List ComponentID) (s : Kernel) (d : ComponentID),
        ((l.foldl (fun acc child => remove_components acc child n) s).workers d =
          s.workers d ∨
        (l.foldl (fun acc child => remove_components acc child n) s).workers d =
          some noOpWorker) := by
      intro l
      induction l with
      | nil => intro s d; exact Or.inl rfl
      | cons c l ihl =>
        intro s d
        rw [List.foldl_cons]
        rcases ihl (remove_components s c n) d with h | h
        · rcases ih s c d with g | g
          · exact Or.inl (h.trans g)
          · exact Or.inr (h.trans g)
        · exact Or.inr h
    intro s id d
    by_cases hf : s.failed.isSome
    · rw [remove_components_failed _ _ _ hf]
      exact Or.inl rfl
    · have hf' : s.failed = none := Option.not_isSome_iff_eq_none.mp hf
      cases hg : s.components.get? id with
      | none =>
        unfold remove_components
        rw [if_neg hf, hg]
        exact Or.inl rfl
      | some c =>
        rw [remove_components_succ s id n c hf' hg]
        rcases hfold c.children
          (kstoreWrite (install_removed_thread s id)
            (fun st => st.set_int (full_path s.components id ++ ".removed") 1
              s.current_time)) d with h | h
        · obtain ⟨-, -, -, -, -, -, k7⟩ := kstoreWrite_fields (install_removed_thread s id)
            (fun st => st.set_int (full_path s.components id ++ ".removed") 1 s.current_time)
          rw [h, k7]
          unfold install_removed_thread
          by_cases hd : d = id
          · subst hd
            exact Or.inr (by simp [Function.update])
          · exact Or.inl (by simp [Function.update, hd])
        · exact Or.inr h

theorem kstoreWrite_of_failed (s : Kernel) (f : Store → Except Err Store)
    (hf : s.failed.isSome = true) : kstoreWrite s f = s := by
  unfold kstoreWrite
  rw [if_pos hf]

theorem kstoreWrite_ok (s : Kernel) (f : Store → Except Err Store) (st : Store)
    (hf : s.failed = none) (h : f s.store = .ok st) :
    kstoreWrite s f = { s with store := st } := by
  unfold kstoreWrite
  rw [hf]
  simp [h]

theorem kstoreWrite_err (s : Kernel) (f : Store → Except Err Store) (e : Err)
    (hf : s.failed = none) (h : f s.store = .error e) :
    kstoreWrite s f = { s with failed := some e } := by
  unfold kstoreWrite
  rw [hf]
  simp [h]

theorem set_int_persist (st : Store) (key k : String) (t : Time)
    (h : mapLookup st.int_data k = some (t, 1)) :
    ∀ st', st.set_int key 1 t = .ok st' → mapLookup st'.int_data k = some (t, 1) := by
  intro st' hok
  unfold Store.set_int at hok
  by_cases hk0 : key = ""
  · rw [if_pos hk0] at hok
    cases hok
  · rw [if_neg hk0] at hok
    by_cases hkk : key = k
    · subst hkk
      rw [h] at hok
      simp at hok
      rw [← hok]
      exact h
    · cases hl : mapLookup st.int_data key with
      | none =>
        rw [hl] at hok
        simp at hok
        rw [← hok]
        show mapLookup (mapInsert st.int_data key (t, 1)) k = some (t, 1)
        rw [mapLookup_insert_of_ne _ _ _ _ hkk]
        exact h
      | some old =>
        obtain ⟨ot, ov⟩ := old
        rw [hl] at hok
        by_cases ht : ot = t
        · by_cases hv : ov = 1
          · simp [ht, hv] at hok
            rw [← hok]
            exact h
          · simp [ht, hv] at hok
        · simp [ht] at hok
          rw [← hok]
          show mapLookup (mapInsert st.int_data key (t, 1)) k = some (t, 1)
          rw [mapLookup_insert_of_ne _ _ _ _ hkk]
          exact h

theorem set_int_establish (st : Store) (key : String) (t : Time) (st' : Store)
    (hok : st.set_int key 1 t = .ok st') :
    mapLookup st'.int_data key = some (t, 1) := by
  unfold Store.set_int at hok
  by_cases hk0 : key = ""
  · rw [if_pos hk0] at hok
    cases hok
  · rw [if_neg hk0] at hok
    cases hl : mapLookup st.int_data key with
    | none =>
      rw [hl] at hok
      simp at hok
      rw [← hok]
      exact mapLookup_insert_self _ _ _
    | some old =>
      obtain ⟨ot, ov⟩ := old
      rw [hl] at hok
      by_cases ht : ot = t
      · by_cases hv : ov = 1
        · simp [ht, hv] at hok
          rw [← hok, hl, ht, hv]
        · simp [ht, hv] at hok
      · simp [ht] at hok
        rw [← hok]
        exact mapLookup_insert_self _ _ _

theorem removeWrite_persist (s : Kernel) (key k : String)
    (h : mapLookup s.store.int_data k = some (s.current_time, 1)) :
    mapLookup (kstoreWrite s
      (fun st => st.set_int key 1 s.current_time)).store.int_data k =
      some (s.current_time, 1) := by
  by_cases hf : s.failed.isSome
  · rw [kstoreWrite_of_failed _ _ hf]
    exact h
  · have hf' : s.failed = none := Option.not_isSome_iff_eq_none.mp hf
    cases hres : s.store.set_int key 1 s.current_time with
    | ok st' =>
      rw [kstoreWrite_ok s _ st' hf' hres]
      exact set_int_persist s.store key k _ h st' hres
    | error e =>
      rw [kstoreWrite_err s _ e hf' hres]
      exact h

theorem removeWrite_establish (s : Kernel) (key : String) (hf : s.failed = none)
    (hok : (kstoreWrite s (fun st => st.set_int key 1 s.current_time)).failed = none) :
    mapLookup (kstoreWrite s
      (fun st => st.set_int key 1 s.current_time)).store.int_data key =
      some (s.current_time, 1) := by
  cases hres : s.store.set_int key 1 s.current_time with
  | ok st' =>
    rw [kstoreWrite_ok s _ st' hf hres]
    exact set_int_establish s.store key _ st' hres
  | error e =>
    rw [kstoreWrite_err s _ e hf hres] at hok
    simp at hok

theorem removeFold_workers (n : Nat) (l : List ComponentID) :
    ∀ (s : Kernel) (d : ComponentID),
      (l.foldl (fun acc child => remove_components acc child n) s).workers d =
        s.workers d ∨
      (l.foldl (fun acc child => remove_components acc child n) s).workers d =
        some noOpWorker := by
  induction l with
  | nil => intro s d; exact Or.inl rfl
  | cons c l ih =>
    intro s d
    rw [List.foldl_cons]
    rcases ih (remove_components s c n) d with h | h
    · rcases remove_components_workers n s c d with g | g
      · exact Or.inl (h.trans g)
      · exact Or.inr (h.trans g)
    · exact Or.inr h

theorem removeFold_preserves (n : Nat) (l : List ComponentID) :
    ∀ (s : Kernel),
      (l.foldl (fun acc child => remove_components acc child n) s).components =
        s.components ∧
      (l.foldl (fun acc child => remove_components acc child n) s).current_time =
        s.current_time := by
  induction l with
  | nil => intro s; exact ⟨rfl, rfl⟩
  | cons c l ih =>
    intro s
    rw [List.foldl_cons]
    obtain ⟨h1, h2⟩ := ih (remove_components s c n)
    obtain ⟨g1, g2, -⟩ := remove_components_preserves n s c
    exact ⟨h1.trans g1, h2.trans g2⟩

theorem remove_store_persist (fuel : Nat) :
    ∀ (s : Kernel) (id : ComponentID) (k : String),
      mapLookup s.store.int_data k = some (s.current_time, 1) →
      mapLookup (remove_components s id fuel).store.int_data k =
        some (s.current_time, 1) := by
  induction fuel with
  | zero =>
    intro s id k h
    unfold remove_components
    split <;> exact h
  | succ n ih =>
    have hfold : ∀ (l : List ComponentID) (s : Kernel) (k : String),
        mapLookup s.store.int_data k = some (s.current_time, 1) →
        mapLookup ((l.foldl (fun acc child => remove_components acc child n) s)).store.int_data
          k = some (s.current_time, 1) := by
      intro l
      induction l with
      | nil => intro s k h; exact h
      | cons c l ihl =>
        intro s k h
        rw [List.foldl_cons]
        have h1 := ih s c k h
        obtain ⟨-, hct, -⟩ := remove_components_preserves n s c
        have h2 := ihl (remove_components s c n) k (by rw [hct]; exact h1)
        rw [hct] at h2
        exact h2
    intro s id k h
    by_cases hf : s.failed.isSome
    · rw [remove_components_failed _ _ _ hf]
      exact h
    · have hf' : s.failed = none := Option.not_isSome_iff_eq_none.mp hf
      cases hg : s.components.get? id with
      | none =>
        unfold remove_components
        rw [if_neg hf, hg]
        exact h
      | some c =>
        rw [remove_components_succ s id n c hf' hg]
        have hct : (kstoreWrite (install_removed_thread s id)
            (fun st => st.set_int (full_path s.components id ++ ".removed") 1
              s.current_time)).current_time = s.current_time :=
          (kstoreWrite_fields _ _).2.1
        have h2 := removeWrite_persist (install_removed_thread s id)
          (full_path s.components id ++ ".removed") k h
        have h3 := hfold c.children (kstoreWrite (install_removed_thread s id)
            (fun st => st.set_int (full_path s.components id ++ ".removed") 1
              s.current_time)) k (by rw [hct]; exact h2)
        rw [hct] at h3
        exact h3

theorem removeFold_failed_none (n : Nat) (l : List ComponentID) (s : Kernel)
    (hok : (l.foldl (fun acc child => remove_components acc child n) s).failed = none) :
    s.failed = none := by
  by_cases hf : s.failed.isSome
  · rw [removeFold_failed n l s hf] at hok
    exact hok
  · exact Option.not_isSome_iff_eq_none.mp hf

theorem remove_workers_noop (fuel : Nat) (s : Kernel) (id d : ComponentID)
    (h : s.workers d = some noOpWorker) :
    (remove_components s id fuel).workers d = some noOpWorker := by
  rcases remove_components_workers fuel s id d with g | g
  · rw [g, h]
  · exact g

theorem removeFold_workers_noop (n : Nat) (l : List ComponentID) (s : Kernel)
    (d : ComponentID) (h : s.workers d = some noOpWorker) :
    (l.foldl (fun acc child => remove_components acc child n) s).workers d =
      some noOpWorker := by
  rcases removeFold_workers n l s d with g | g
  · rw [g, h]
  · exact g

theorem removeFold_store_persist (n : Nat) (l : List ComponentID) :
    ∀ (s : Kernel) (k : String),
      mapLookup s.store.int_data k = some (s.current_time, 1) →
      mapLookup ((l.foldl (fun acc child => remove_components acc child n)
          s)).store.int_data k = some (s.current_time, 1) := by
  induction l with
  | nil => intro s k h; exact h
  | cons c l ihl =>
    intro s k h
    rw [List.foldl_cons]
    have h1 := remove_store_persist n s c k h
    obtain ⟨-, hct, -⟩ := remove_components_preserves n s c
    have h2 := ihl (remove_components s c n) k (by rw [hct]; exact h1)
    rw [hct] at h2
    exact h2

theorem remove_establishes (fuel : Nat) :
    ∀ (s : Kernel) (id : ComponentID),
      (remove_components s id fuel).failed = none →
      ∀ d ∈ descSelf s.components fuel id,
        (remove_components s id fuel).workers d = some noOpWorker ∧
        mapLookup (remove_components s id fuel).store.int_data
          (full_path s.components d ++ ".removed") = some (s.current_time, 1) := by
  induction fuel with
  | zero =>
    intro s id hok d hd
    simp [descSelf] at hd
  | succ n ih =>
    have hfold : ∀ (l : List ComponentID) (s : Kernel),
        (l.foldl (fun acc child => remove_components acc child n) s).failed = none →
        ∀ child ∈ l, ∀ d ∈ descSelf s.components n child,
          (l.foldl (fun acc child => remove_components acc child n) s).workers d =
            some noOpWorker ∧
          mapLookup (l.foldl (fun acc child => remove_components acc child n)
              s).store.int_data (full_path s.components d ++ ".removed") =
            some (s.current_time, 1) := by
      intro l
      induction l with
      | nil => intro s hok child hchild; simp at hchild
      | cons c l ihl =>
        intro s hok child hchild d hd
        rw [List.foldl_cons] at hok ⊢
        obtain ⟨hcomp, hct, -⟩ := remove_components_preserves n s c
        rcases List.mem_cons.mp hchild with hEq | hmem
        · subst hEq
          have hs1 : (remove_components s child n).failed = none :=
            removeFold_failed_none n l _ hok
          have hest := ih s child hs1 d hd
          constructor
          · exact removeFold_workers_noop n l _ d hest.1
          · have hp := removeFold_store_persist n l (remove_components s child n)
              (full_path s.components d ++ ".removed") (by rw [hct]; exact hest.2)
            rw [hct] at hp
            exact hp
        · have h2 := ihl (remove_components s c n) hok child hmem d
            (by rw [hcomp]; exact hd)
          rw [hcomp, hct] at h2
          exact h2
    intro s id hok d hd
    by_cases hf : s.failed.isSome
    · rw [remove_components_failed _ _ _ hf] at hok
      rw [hok] at hf
      simp at hf
    · have hf' : s.failed = none := Option.not_isSome_iff_eq_none.mp hf
      cases hg : s.components.get? id with
      | none =>
        unfold descSelf at hd
        rw [hg] at hd
        simp at hd
      | some c =>
        rw [remove_components_succ s id n c hf' hg] at hok ⊢
        have hcomp2 : (kstoreWrite (install_removed_thread s id)
            (fun st => st.set_int (full_path s.components id ++ ".removed") 1
              s.current_time)).components = s.components :=
          (kstoreWrite_fields _ _).1
        have hct2 : (kstoreWrite (install_removed_thread s id)
            (fun st => st.set_int (full_path s.components id ++ ".removed") 1
              s.current_time)).current_time = s.current_time :=
          (kstoreWrite_fields _ _).2.1
        have hs2ok : (kstoreWrite (install_removed_thread s id)
            (fun st => st.set_int (full_path s.components id ++ ".removed") 1
              s.current_time)).failed = none :=
          removeFold_failed_none n c.children _ hok
        have hestid : mapLookup (kstoreWrite (install_removed_thread s id)
            (fun st => st.set_int (full_path s.components id ++ ".removed") 1
              s.current_time)).store.int_data
            (full_path s.components id ++ ".removed") = some (s.current_time, 1) :=
          removeWrite_establish (install_removed_thread s id)
            (full_path s.components id ++ ".removed") hf' hs2ok
        have hwid : (kstoreWrite (install_removed_thread s id)
            (fun st => st.set_int (full_path s.components id ++ ".removed") 1
              s.current_time)).workers id = some noOpWorker := by
          rw [(kstoreWrite_fields _ _).2.2.2.2.2.2]
          unfold install_removed_thread
          simp [Function.update]
        unfold descSelf at hd
        rw [hg] at hd
        rcases List.mem_cons.mp hd with hEq | hmem
        · subst hEq
          constructor
          · exact removeFold_workers_noop n c.children _ d hwid
          · have hp := removeFold_store_persist n c.children _
              (full_path s.components d ++ ".removed") (by rw [hct2]; exact hestid)
            rw [hct2] at hp
            exact hp
        · obtain ⟨child, hchild, hd'⟩ := List.mem_flatMap.mp hmem
          have h2 := hfold c.children _ hok child hchild d (by rw [hcomp2]; exact hd')
          rw [hcomp2, hct2] at h2
          exact h2

/-! ### C4 and C5 -/

/-- C4: the sink installed at removal (`no_op_thread`) answers every event
it consumes with a fresh `Effector::new()` — empty logs, no events, an
empty store patch, and exit = removed = false — and once
`remove_components` runs for a component, that component's worker is the
sink, so every event delivered to it afterwards produces exactly that empty
effector. -/
theorem removed_worker_empty_effector (s : Kernel) (id : ComponentID) (fuel : Nat)
    (c : Component) (ev : Event) (hf : s.failed = none)
    (hc : s.components.get? id = some c) :
    (remove_components s id (fuel + 1)).workers id = some noOpWorker ∧
    noOpWorker ev = Effector.new ∧
    Effector.new.logs = [] ∧ Effector.new.events = [] ∧
    Effector.new.store = Store.new ∧ Effector.new.exit = false ∧
    Effector.new.removed = false := by
  refine ⟨?_, rfl, rfl, rfl, rfl, rfl, rfl⟩
  rw [remove_components_succ s id fuel c hf hc]
  apply removeFold_workers_noop
  rw [(kstoreWrite_fields _ _).2.2.2.2.2.2]
  unfold install_removed_thread
  simp [Function.update]

/-- C4 witness. -/
theorem removed_worker_empty_effector_witness :
    exK5.failed = none ∧
    exK5.components.get? 0 = some ⟨"a", NO_COMPONENT, [1]⟩ ∧
    ((remove_components exK5 0 3).workers 0 = some noOpWorker ∧
      noOpWorker ⟨"ping", ""⟩ = Effector.new ∧
      Effector.new.logs = [] ∧ Effector.new.events = [] ∧
      Effector.new.store = Store.new ∧ Effector.new.exit = false ∧
      Effector.new.removed = false) := by
  refine ⟨rfl, rfl, ?_⟩
  exact removed_worker_empty_effector exK5 0 2 ⟨"a", NO_COMPONENT, [1]⟩ ⟨"ping", ""⟩ rfl rfl

/-- C5: when `remove_components` runs for component C (as `apply_effects`
does when an effector's removed flag is set) and no panic occurs, then for
C and every descendant of C the drop-all worker is installed and the int
key `<full_path>.removed = 1` is written with write_time = current_time. -/
theorem remove_cascades (s : Kernel) (id : ComponentID) (fuel : Nat)
    (hok : (remove_components s id fuel).failed = none) :
    ∀ d ∈ descSelf s.components fuel id,
      (remove_components s id fuel).workers d = some noOpWorker ∧
      mapLookup (remove_components s id fuel).store.int_data
        (full_path s.components d ++ ".removed") = some (s.current_time, 1) :=
  remove_establishes fuel s id hok

/-- C5 witness: removing the root `a` also removes its child `b`: both
`a.removed` and `a.b.removed` hold value 1 at the removal time 7, and both
workers are the sink. -/
theorem remove_cascades_witness :
    (remove_components exK5 0 3).failed = none ∧
    (1 : ComponentID) ∈ descSelf exK5.components 3 0 ∧
    ((remove_components exK5 0 3).workers 1 = some noOpWorker ∧
      mapLookup (remove_components exK5 0 3).store.int_data
        (full_path exK5.components 1 ++ ".removed") = some (exK5.current_time, 1)) := by
  refine ⟨rfl, by decide, ?_⟩
  exact remove_cascades exK5 0 3 rfl 1 (by decide)

/-! ### Dispatch machinery lemmas (C3) -/

theorem add_secs_ge (cfg : Config) (current : Time) (secs : Rat) :
    current + 1 ≤ add_secs cfg current secs := by
  show current + 1 ≤ if 0 < ratTrunc (secs * cfg.time_units) then
    current + ratTrunc (secs * cfg.time_units) else current + 1
  split
  case isTrue h => linarith
  case isFalse h => linarith

theorem Steps_refl (s : Kernel) : Steps s s :=
  ⟨rfl, rfl, rfl, rfl, fun _ h => h, fun _ he => Or.inl he⟩

theorem Steps_trans {s t u : Kernel} (h1 : Steps s t) (h2 : Steps t u) : Steps s u := by
  obtain ⟨a1, a2, a3, a4, a5, a6⟩ := h1
  obtain ⟨b1, b2, b3, b4, b5, b6⟩ := h2
  refine ⟨b1.trans a1, b2.trans a2, b3.trans a3, b4.trans a4,
    fun i hi => b5 i (a5 i hi), fun e he => ?_⟩
  rcases b6 e he with h | h
  · exact a6 e h
  · rw [a3] at h
    exact Or.inr h

theorem apply_events_step_steps (s : Kernel) (e : ComponentID × Event × Rat) :
    Steps s (apply_events_step s e) := by
  unfold apply_events_step
  split
  · exact Steps_refl s
  · split
    · exact ⟨rfl, rfl, rfl, rfl, fun _ h => h, fun _ he => Or.inl he⟩
    · refine ⟨rfl, rfl, rfl, rfl, fun _ h => h, fun x hx => ?_⟩
      unfold Kernel.schedule at hx
      simp only [List.mem_append, List.mem_singleton] at hx
      rcases hx with h | h
      · exact Or.inl h
      · subst h
        exact Or.inr (add_secs_ge s.cfg s.current_time e.2.2)

theorem apply_events_steps (s : Kernel) (events : List (ComponentID × Event × Rat)) :
    Steps s (apply_events s events) := by
  unfold apply_events
  induction events generalizing s with
  | nil => exact Steps_refl s
  | cons e l ih =>
    rw [List.foldl_cons]
    exact Steps_trans (apply_events_step_steps s e) (ih (apply_events_step s e))

theorem kstoreWrite_steps (s : Kernel) (f : Store → Except Err Store) :
    Steps s (kstoreWrite s f) := by
  obtain ⟨h1, h2, h3, h4, h5, h6, h7⟩ := kstoreWrite_fields s f
  exact ⟨h1, h3, h2, h5, fun i hi => by rw [h7]; exact hi,
    fun e he => Or.inl (by rw [← h4]; exact he)⟩

theorem apply_stores_steps (s : Kernel) (eff : Effector) (id : ComponentID) :
    Steps s (apply_stores s eff id) := by
  unfold apply_stores
  have hint : ∀ (l : List (String × Time × Int)) (p : String) (s : Kernel),
      Steps s (l.foldl (store_int_step p) s) := by
    intro l p
    induction l with
    | nil => intro s; exact Steps_refl s
    | cons e l ih =>
      intro s
      rw [List.foldl_cons]
      exact Steps_trans (kstoreWrite_steps s _) (ih _)
  have hfloat : ∀ (l : List (String × Time × Rat)) (p : String) (s : Kernel),
      Steps s (l.foldl (store_float_step p) s) := by
    intro l p
    induction l with
    | nil => intro s; exact Steps_refl s
    | cons e l ih =>
      intro s
      rw [List.foldl_cons]
      exact Steps_trans (kstoreWrite_steps s _) (ih _)
  have hstring : ∀ (l : List (String × Time × String)) (p : String) (s : Kernel),
      Steps s (l.foldl (store_string_step p) s) := by
    intro l p
    induction l with
    | nil => intro s; exact Steps_refl s
    | cons e l ih =>
      intro s
      rw [List.foldl_cons]
      exact Steps_trans (kstoreWrite_steps s _) (ih _)
  exact Steps_trans (hint _ _ s) (Steps_trans (hfloat _ _ _) (hstring _ _ _))

theorem remove_components_steps (s : Kernel) (id : ComponentID) (fuel : Nat) :
    Steps s (remove_components s id fuel) := by
  obtain ⟨h1, h2, h3, h4, h5, h6⟩ := remove_components_preserves fuel s id
  refine ⟨h1, h3, h2, h5, fun i hi => ?_, fun e he => Or.inl (by rw [← h4]; exact he)⟩
  rcases remove_components_workers fuel s id i with g | g
  · rw [g]; exact hi
  · rw [g]; rfl

theorem apply_effects_steps (s : Kernel) (id : ComponentID) (eff : Effector) :
    Steps s (apply_effects s id eff) := by
  unfold apply_effects
  split
  · exact Steps_refl s
  · split
    · exact Steps_trans (apply_events_steps s eff.events)
        (Steps_trans (apply_stores_steps _ eff id) (remove_components_steps _ id _))
    · exact Steps_trans (apply_events_steps s eff.events) (apply_stores_steps _ eff id)

theorem Steps_set_exited {s t : Kernel} (msg : String) (h : Steps s t) :
    Steps s { t with exited := some msg } := by
  obtain ⟨h1, h2, h3, h4, h5, h6⟩ := h
  exact ⟨h1, h2, h3, h4, h5, h6⟩

theorem dispatch_apply_step_steps (s : Kernel) (ie : ComponentID × Effector) :
    Steps s (dispatch_apply_step s ie) := by
  unfold dispatch_apply_step
  split
  · exact Steps_refl s
  · show Steps s (if (apply_effects s ie.1 ie.2).failed.isSome = true then
      apply_effects s ie.1 ie.2
      else if ie.2.exit = true then
        { apply_effects s ie.1 ie.2 with exited := some "effector.exit was called" }
      else apply_effects s ie.1 ie.2)
    split
    · exact apply_effects_steps s ie.1 ie.2
    · split
      · exact Steps_set_exited _ (apply_effects_steps s ie.1 ie.2)
      · exact apply_effects_steps s ie.1 ie.2

theorem dispatch_apply_fold_steps (l : List (ComponentID × Effector)) (s : Kernel) :
    Steps s (l.foldl dispatch_apply_step s) := by
  induction l generalizing s with
  | nil => exact Steps_refl s
  | cons ie l ih =>
    rw [List.foldl_cons]
    exact Steps_trans (dispatch_apply_step_steps s ie) (ih _)

theorem sendOne_fields (acc : Kernel × List (ComponentID × Effector)) (e : ScheduledEvent) :
    (sendOne acc e).1.current_time = acc.1.current_time ∧
    (sendOne acc e).1.components = acc.1.components ∧
    (sendOne acc e).1.cfg = acc.1.cfg ∧
    (sendOne acc e).1.scheduled = acc.1.scheduled ∧
    (sendOne acc e).1.workers = acc.1.workers := by
  unfold sendOne
  split
  · exact ⟨rfl, rfl, rfl, rfl, rfl⟩
  · cases hw : acc.1.workers e.target with
    | some w => exact ⟨rfl, rfl, rfl, rfl, rfl⟩
    | none => exact ⟨rfl, rfl, rfl, rfl, rfl⟩

theorem sendFold_fields (batch : List ScheduledEvent) :
    ∀ (acc : Kernel × List (ComponentID × Effector)),
      (batch.foldl sendOne acc).1.current_time = acc.1.current_time ∧
      (batch.foldl sendOne acc).1.components = acc.1.components ∧
      (batch.foldl sendOne acc).1.cfg = acc.1.cfg ∧
      (batch.foldl sendOne acc).1.scheduled = acc.1.scheduled ∧
      (batch.foldl sendOne acc).1.workers = acc.1.workers := by
  induction batch with
  | nil => intro acc; exact ⟨rfl, rfl, rfl, rfl, rfl⟩
  | cons e batch ih =>
    intro acc
    rw [List.foldl_cons]
    obtain ⟨h1, h2, h3, h4, h5⟩ := ih (sendOne acc e)
    obtain ⟨g1, g2, g3, g4, g5⟩ := sendOne_fields acc e
    exact ⟨h1.trans g1, h2.trans g2, h3.trans g3, h4.trans g4, h5.trans g5⟩

theorem sendFold_spec (batch : List ScheduledEvent) :
    ∀ (s : Kernel) (effs : List (ComponentID × Effector)),
      s.failed = none → (∀ e ∈ batch, (s.workers e.target).isSome) →
      (batch.foldl sendOne (s, effs)).1.failed = none ∧
      (batch.foldl sendOne (s, effs)).1.trace =
        s.trace ++ batch.map (fun e => (e.time, e.target, e.event.name)) := by
  induction batch with
  | nil =>
    intro s effs hf hw
    exact ⟨hf, by simp⟩
  | cons e batch ih =>
    intro s effs hf hw
    rw [List.foldl_cons]
    obtain ⟨w, hww⟩ := Option.isSome_iff_exists.mp (hw e (List.mem_cons_self e batch))
    have hstep : sendOne (s, effs) e =
        ({ s with
            finger_print :=
              update_finger_print s.finger_print e.time e.target (nameBytes e.event.name),
            event_num := s.event_num + 1,
            trace := s.trace ++ [(e.time, e.target, e.event.name)] },
          effs ++ [(e.target, w e.event)]) := by
      unfold sendOne
      rw [if_neg (by simp [hf])]
      rw [show (s, effs).1.workers e.target = some w from hww]
    rw [hstep]
    obtain ⟨r1, r2⟩ := ih
      ({ s with
          finger_print :=
            update_finger_print s.finger_print e.time e.target (nameBytes e.event.name),
          event_num := s.event_num + 1,
          trace := s.trace ++ [(e.time, e.target, e.event.name)] })
      (effs ++ [(e.target, w e.event)]) hf
      (fun e' he' => hw e' (List.mem_cons_of_mem e he'))
    refine ⟨r1, ?_⟩
    rw [r2]
    show s.trace ++ [(e.time, e.target, e.event.name)] ++
        batch.map (fun e => (e.time, e.target, e.event.name)) = _
    rw [List.map_cons, List.append_assoc]
    rfl

theorem foldlMin_le_init (l : List ScheduledEvent) :
    ∀ (acc : Time), l.foldl (fun m x => min m x.time) acc ≤ acc := by
  induction l with
  | nil => intro acc; exact le_refl acc
  | cons x l ih =>
    intro acc
    rw [List.foldl_cons]
    exact le_trans (ih (min acc x.time)) (min_le_left _ _)

theorem foldlMin_le_mem (l : List ScheduledEvent) :
    ∀ (acc : Time) (e : ScheduledEvent), e ∈ l →
      l.foldl (fun m x => min m x.time) acc ≤ e.time := by
  induction l with
  | nil => intro acc e he; simp at he
  | cons x l ih =>
    intro acc e he
    rw [List.foldl_cons]
    rcases List.mem_cons.mp he with h | h
    · subst h
      exact le_trans (foldlMin_le_init l _) (min_le_right _ _)
    · exact ih _ e h

theorem le_foldlMin (l : List ScheduledEvent) :
    ∀ (acc t : Time), t ≤ acc → (∀ e ∈ l, t ≤ e.time) →
      t ≤ l.foldl (fun m x => min m x.time) acc := by
  induction l with
  | nil => intro acc t h _; exact h
  | cons x l ih =>
    intro acc t h hl
    rw [List.foldl_cons]
    exact ih _ t (le_min h (hl x (List.mem_cons_self x l)))
      (fun e he => hl e (List.mem_cons_of_mem x he))

theorem minTime_le (l : List ScheduledEvent) (e : ScheduledEvent) (he : e ∈ l) :
    minTime l ≤ e.time := by
  cases l with
  | nil => simp at he
  | cons a rest =>
    unfold minTime
    rcases List.mem_cons.mp he with h | h
    · subst h
      exact foldlMin_le_init rest _
    · exact foldlMin_le_mem rest _ e h

theorem le_minTime (l : List ScheduledEvent) (t : Time) (hne : ¬ l = [])
    (h : ∀ e ∈ l, t ≤ e.time) : t ≤ minTime l := by
  cases l with
  | nil => exact absurd rfl hne
  | cons a rest =>
    unfold minTime
    exact le_foldlMin rest _ t (h a (List.mem_cons_self a rest))
      (fun e he => h e (List.mem_cons_of_mem a he))

theorem init_sched_fold (name : String) (n : Nat) (s : Kernel) :
    (List.range n).foldl (init_sched_step name) s =
      { s with scheduled := s.scheduled ++
          (((List.range n).filter (fun i => (s.workers i).isSome)).map
            (fun i => ⟨0, i, ⟨name, ""⟩⟩)) } := by
  induction n with
  | zero => simp
  | succ m ih =>
    rw [List.range_succ, List.foldl_append, ih, List.filter_append, List.map_append,
      List.foldl_cons, List.foldl_nil]
    unfold init_sched_step Kernel.schedule
    by_cases hw : (s.workers m).isSome
    · rw [if_pos (by simpa using hw)]
      simp [List.filter_cons, hw]
    · rw [if_neg (by simpa using hw)]
      simp [List.filter_cons, hw]

theorem dispatch_failed (s : Kernel) (hf : s.failed.isSome = true) :
    dispatch_events s = s := by
  unfold dispatch_events
  rw [if_pos hf]

theorem dispatch_eq (s : Kernel) (hfa : s.failed = none) (hne : ¬ s.scheduled = []) :
    dispatch_events s =
      (sortById ((s.scheduled.filter (fun e => e.time = minTime s.scheduled)).foldl sendOne
          ({ s with
              current_time := minTime s.scheduled
              scheduled := s.scheduled.filter
                (fun e => ¬ e.time = minTime s.scheduled) }, [])).2).foldl
        dispatch_apply_step
        ((s.scheduled.filter (fun e => e.time = minTime s.scheduled)).foldl sendOne
          ({ s with
              current_time := minTime s.scheduled
              scheduled := s.scheduled.filter
                (fun e => ¬ e.time = minTime s.scheduled) }, [])).1 := by
  obtain ⟨a, l, hc⟩ := List.exists_cons_of_ne_nil hne
  unfold dispatch_events
  rw [hfa, hc]
  rfl

theorem init_stage_step_of_failed (s : Kernel) (k : Nat) (hf : s.failed.isSome = true) :
    init_stage_step s k = s := by
  unfold init_stage_step
  rw [if_pos hf]

theorem initFold_failed (l : List Nat) (s : Kernel) (hf : s.failed.isSome = true) :
    l.foldl init_stage_step s = s := by
  induction l with
  | nil => rfl
  | cons k l ih => rw [List.foldl_cons, init_stage_step_of_failed s k hf, ih]

theorem time_pos_one_le (x : Time) (h : 0 < x) : 1 ≤ x := by
  have h2 := Int.lt_iff_add_one_le.mp h
  rwa [zero_add] at h2

theorem schedule_init_stage_eq (s : Kernel) (k : Nat) :
    schedule_init_stage s k =
      if (s.scheduled ++ (activeIds s).map
          (fun i => (⟨0, i, ⟨"init " ++ toString k, ""⟩⟩ : ScheduledEvent))).isEmpty then
        { s with
            scheduled := s.scheduled ++ (activeIds s).map
              (fun i => ⟨0, i, ⟨"init " ++ toString k, ""⟩⟩)
            failed := some (.assertFailed "!scheduled.is_empty()") }
      else
        { s with
            scheduled := s.scheduled ++ (activeIds s).map
              (fun i => ⟨0, i, ⟨"init " ++ toString k, ""⟩⟩) } := by
  show (if ((List.range s.components.length).foldl
      (init_sched_step ("init " ++ toString k)) s).scheduled.isEmpty = true then
      { (List.range s.components.length).foldl
          (init_sched_step ("init " ++ toString k)) s with
          failed := some (.assertFailed "!scheduled.is_empty()") }
    else (List.range s.components.length).foldl
      (init_sched_step ("init " ++ toString k)) s) = _
  rw [init_sched_fold]
  rfl

theorem init_stage_step_eq (s : Kernel) (k : Nat) (hfa : s.failed = none) :
    init_stage_step s k =
      if (dispatch_events (schedule_init_stage s k)).current_time = 0 then
        (if (dispatch_events (schedule_init_stage s k)).failed.isSome then
          dispatch_events (schedule_init_stage s k)
        else if (dispatch_events (schedule_init_stage s k)).exited.isSome then
          { dispatch_events (schedule_init_stage s k) with
              exited := some "Effector.exit was called during initialization" }
        else dispatch_events (schedule_init_stage s k))
      else
        { dispatch_events (schedule_init_stage s k) with
            failed := some (.assertFailed "current_time.0 == 0") } := by
  unfold init_stage_step
  rw [hfa]
  by_cases h0 : (dispatch_events (schedule_init_stage s k)).current_time = 0
  · simp only [Option.isSome_none, Bool.false_eq_true, if_false, if_pos h0]
  · simp only [Option.isSome_none, Bool.false_eq_true, if_false, if_neg h0]
    simp

theorem dispatch_batch_spec (s : Kernel) (old inits : List ScheduledEvent)
    (hfa : s.failed = none)
    (hs : s.scheduled = old ++ inits)
    (hold : ∀ e ∈ old, 0 < e.time)
    (hin : ∀ e ∈ inits, e.time = 0)
    (hinne : ¬ inits = [])
    (hw : ∀ e ∈ inits, (s.workers e.target).isSome) :
    (dispatch_events s).failed.isSome = true ∨
    ((dispatch_events s).failed = none ∧
      (dispatch_events s).current_time = 0 ∧
      (dispatch_events s).components = s.components ∧
      (dispatch_events s).cfg = s.cfg ∧
      (∀ i, (s.workers i).isSome → ((dispatch_events s).workers i).isSome) ∧
      (∀ e ∈ (dispatch_events s).scheduled, 0 < e.time) ∧
      (dispatch_events s).trace = s.trace ++
        inits.map (fun e => (e.time, e.target, e.event.name))) := by
  have hne : ¬ s.scheduled = [] := by
    rw [hs]
    intro h
    exact hinne (List.append_eq_nil.mp h).2
  obtain ⟨e0, he0⟩ := List.exists_mem_of_ne_nil inits hinne
  have hmle : minTime s.scheduled ≤ 0 := by
    have hmem : e0 ∈ s.scheduled := by
      rw [hs]
      exact List.mem_append_right _ he0
    have h := minTime_le s.scheduled e0 hmem
    rw [hin e0 he0] at h
    exact h
  have hmge : (0 : Time) ≤ minTime s.scheduled := by
    apply le_minTime s.scheduled 0 hne
    intro e he
    rw [hs] at he
    rcases List.mem_append.mp he with h | h
    · exact le_of_lt (hold e h)
    · rw [hin e h]
  have hm0 : minTime s.scheduled = 0 := le_antisymm hmle hmge
  have hbatch : s.scheduled.filter (fun e => e.time = minTime s.scheduled) = inits := by
    rw [hm0, hs, List.filter_append]
    rw [List.filter_eq_nil_iff.mpr (fun e he => by
        simp only [decide_eq_true_eq]
        exact (hold e he).ne'),
      List.filter_eq_self.mpr (fun e he => by
        simp only [decide_eq_true_eq]
        exact hin e he)]
    simp
  have hrest : s.scheduled.filter (fun e => ¬ e.time = minTime s.scheduled) = old := by
    rw [hm0, hs, List.filter_append]
    rw [List.filter_eq_self.mpr (fun e he => by
        simp only [decide_not, Bool.not_eq_true', decide_eq_false_iff_not]
        exact (hold e he).ne'),
      List.filter_eq_nil_iff.mpr (fun e he => by
        simp only [decide_not, Bool.not_eq_true', decide_eq_false_iff_not]
        intro hcon
        exact hcon (hin e he))]
    simp
  rw [dispatch_eq s hfa hne, hbatch, hrest, hm0]
  obtain ⟨sf1, sf2⟩ := sendFold_spec inits
    ({ s with current_time := 0, scheduled := old }) [] hfa hw
  obtain ⟨ff1, ff2, ff3, ff4, ff5⟩ := sendFold_fields inits
    ({ s with current_time := 0, scheduled := old }, [])
  obtain ⟨st1, st2, st3, st4, st5, st6⟩ := dispatch_apply_fold_steps
    (sortById (inits.foldl sendOne
      ({ s with current_time := 0, scheduled := old }, [])).2)
    ((inits.foldl sendOne ({ s with current_time := 0, scheduled := old }, [])).1)
  by_cases hrf : ((sortById (inits.foldl sendOne
      ({ s with current_time := 0, scheduled := old }, [])).2).foldl dispatch_apply_step
      ((inits.foldl sendOne
        ({ s with current_time := 0, scheduled := old }, [])).1)).failed.isSome
  · exact Or.inl hrf
  · right
    refine ⟨Option.not_isSome_iff_eq_none.mp hrf, ?_, ?_, ?_, ?_, ?_, ?_⟩
    · rw [st3, ff1]
    · rw [st1, ff2]
    · rw [st2, ff3]
    · intro i hi
      apply st5
      rw [ff5]
      exact hi
    · intro e he
      rcases st6 e he with h | h
      · rw [ff4] at h
        exact hold e h
      · rw [ff1] at h
        have h2 : (0 : Time) + 1 ≤ e.time := h
        linarith
    · rw [st4, sf2]

theorem dispatch_stage_no_active (s : Kernel) (k : Nat)
    (hfa : s.failed = none) (hsch : ∀ e ∈ s.scheduled, 0 < e.time)
    (hA : activeIds s = []) :
    (dispatch_events (schedule_init_stage s k)).failed.isSome = true ∨
    ¬ (dispatch_events (schedule_init_stage s k)).current_time = 0 := by
  rw [schedule_init_stage_eq, hA]
  simp only [List.map_nil, List.append_nil]
  by_cases hemp : s.scheduled.isEmpty = true
  · rw [if_pos hemp]
    left
    rw [dispatch_failed]
    · rfl
    · rfl
  · rw [if_neg hemp]
    have hs : ({ s with scheduled := s.scheduled } : Kernel) = s := rfl
    rw [hs]
    right
    have hne : ¬ s.scheduled = [] := by
      intro h
      rw [h] at hemp
      exact hemp rfl
    rw [dispatch_eq s hfa hne]
    have h1 : (1 : Time) ≤ minTime s.scheduled :=
      le_minTime s.scheduled 1 hne (fun e he => time_pos_one_le _ (hsch e he))
    rw [(dispatch_apply_fold_steps _ _).2.2.1, (sendFold_fields _ _).1]
    show ¬ minTime s.scheduled = 0
    intro h0
    rw [h0] at h1
    exact absurd h1 (by decide)

theorem dispatch_stage_active (s : Kernel) (k : Nat)
    (hfa : s.failed = none) (hsch : ∀ e ∈ s.scheduled, 0 < e.time)
    (hA : ¬ activeIds s = []) :
    (dispatch_events (schedule_init_stage s k)).failed.isSome = true ∨
    ((dispatch_events (schedule_init_stage s k)).failed = none ∧
      (dispatch_events (schedule_init_stage s k)).current_time = 0 ∧
      (dispatch_events (schedule_init_stage s k)).components = s.components ∧
      (dispatch_events (schedule_init_stage s k)).cfg = s.cfg ∧
      (∀ i, (s.workers i).isSome →
        ((dispatch_events (schedule_init_stage s k)).workers i).isSome) ∧
      (∀ e ∈ (dispatch_events (schedule_init_stage s k)).scheduled, 0 < e.time) ∧
      (dispatch_events (schedule_init_stage s k)).trace = s.trace ++
        (activeIds s).map (fun i => ((0 : Time), i, "init " ++ toString k))) := by
  have hinitsne : ¬ ((activeIds s).map
      (fun i => (⟨0, i, ⟨"init " ++ toString k, ""⟩⟩ : ScheduledEvent))) = [] := by
    simpa using hA
  have hemp : (s.scheduled ++ (activeIds s).map
      (fun i => (⟨0, i, ⟨"init " ++ toString k, ""⟩⟩ : ScheduledEvent))).isEmpty = false := by
    cases h : s.scheduled ++ (activeIds s).map
        (fun i => (⟨0, i, ⟨"init " ++ toString k, ""⟩⟩ : ScheduledEvent)) with
    | nil => exact absurd (List.append_eq_nil.mp h).2 hinitsne
    | cons a l => rfl
  rw [schedule_init_stage_eq, if_neg (by rw [hemp]; simp)]
  have hmain := dispatch_batch_spec ({ s with scheduled := s.scheduled ++ (activeIds s).map (fun i => (⟨0, i, ⟨"init " ++ toString k, ""⟩⟩ : ScheduledEvent)) })
    s.scheduled
    ((activeIds s).map (fun i => (⟨0, i, ⟨"init " ++ toString k, ""⟩⟩ : ScheduledEvent)))
    hfa rfl hsch
    (fun e he => by
      obtain ⟨i, -, rfl⟩ := List.mem_map.mp he
      rfl)
    hinitsne
    (fun e he => by
      obtain ⟨i, hi, rfl⟩ := List.mem_map.mp he
      exact (List.mem_filter.mp hi).2)
  rcases hmain with h | ⟨h1, h2, h3, h4, h5, h6, h7⟩
  · exact Or.inl h
  · right
    refine ⟨h1, h2, h3, h4, h5, h6, ?_⟩
    rw [h7, List.map_map]
    rfl

theorem init_stage_step_spec (s : Kernel) (k : Nat)
    (hfa : s.failed = none) (hsch : ∀ e ∈ s.scheduled, 0 < e.time) :
    (init_stage_step s k).failed.isSome = true ∨
    ((init_stage_step s k).failed = none ∧
      (init_stage_step s k).current_time = 0 ∧
      (init_stage_step s k).components = s.components ∧
      (init_stage_step s k).cfg = s.cfg ∧
      (∀ i, (s.workers i).isSome → ((init_stage_step s k).workers i).isSome) ∧
      (∀ e ∈ (init_stage_step s k).scheduled, 0 < e.time) ∧
      (init_stage_step s k).trace = s.trace ++
        (activeIds s).map (fun i => ((0 : Time), i, "init " ++ toString k))) := by
  rw [init_stage_step_eq s k hfa]
  by_cases hA : activeIds s = []
  · rcases dispatch_stage_no_active s k hfa hsch hA with h | h
    · by_cases h0 : (dispatch_events (schedule_init_stage s k)).current_time = 0
      · rw [if_pos h0, if_pos h]
        exact Or.inl h
      · rw [if_neg h0]
        exact Or.inl rfl
    · rw [if_neg h]
      exact Or.inl rfl
  · rcases dispatch_stage_active s k hfa hsch hA with h | ⟨h1, h2, h3, h4, h5, h6, h7⟩
    · by_cases h0 : (dispatch_events (schedule_init_stage s k)).current_time = 0
      · rw [if_pos h0, if_pos h]
        exact Or.inl h
      · rw [if_neg h0]
        exact Or.inl rfl
    · rw [if_pos h2, if_neg (by simp [h1])]
      by_cases hex : (dispatch_events (schedule_init_stage s k)).exited.isSome
      · rw [if_pos hex]
        exact Or.inr ⟨h1, h2, h3, h4, h5, h6, h7⟩
      · rw [if_neg hex]
        exact Or.inr ⟨h1, h2, h3, h4, h5, h6, h7⟩

theorem map_filter_comm {α β : Type} (f : α → β) (p : β → Bool) (l : List α) :
    (l.map f).filter p = (l.filter (fun x => p (f x))).map f := by
  induction l with
  | nil => rfl
  | cons a l ih =>
    rw [List.map_cons, List.filter_cons, List.filter_cons]
    by_cases h : p (f a) = true
    · rw [if_pos h, if_pos h, List.map_cons, ih]
    · rw [if_neg h, if_neg h, ih]

theorem filter_eq_singleton_of_nodup (l : List Nat) (i : Nat) :
    l.Nodup → i ∈ l → l.filter (fun j => j = i) = [i] := by
  induction l with
  | nil => intro _ h; simp at h
  | cons a l ih =>
    intro hnd hm
    rw [List.filter_cons]
    by_cases ha : a = i
    · rw [if_pos (by simp [ha])]
      subst ha
      have hnotin : a ∉ l := (List.nodup_cons.mp hnd).1
      rw [List.filter_eq_nil_iff.mpr (fun j hj => by
        simp only [decide_eq_true_eq]
        intro hji
        exact hnotin (hji ▸ hj))]
    · rw [if_neg (by simp [ha])]
      rcases List.mem_cons.mp hm with h | h
      · exact absurd h.symm ha
      · exact ih (List.nodup_cons.mp hnd).2 h

theorem chunk_filter (i : ComponentID) (s : Kernel) (nm : String)
    (hw : (s.workers i).isSome) (hlt : i < s.components.length) :
    ((activeIds s).map (fun j => ((0 : Time), j, nm))).filter
      (fun d => d.2.1 = i) = [((0 : Time), i, nm)] := by
  rw [map_filter_comm]
  have hnd : (activeIds s).Nodup := List.Nodup.filter _ (List.nodup_range _)
  have hm : i ∈ activeIds s :=
    List.mem_filter.mpr ⟨List.mem_range.mpr hlt, hw⟩
  have hsing : (activeIds s).filter (fun j => decide (j = i)) = [i] :=
    filter_eq_singleton_of_nodup (activeIds s) i hnd hm
  rw [show (fun j => decide (((0 : Time), j, nm).2.1 = i)) = (fun j => decide (j = i))
    from rfl, hsing]
  rfl

theorem init_fold_time (l : List Nat) :
    ∀ s : Kernel, s.failed = none → (∀ e ∈ s.scheduled, 0 < e.time) →
      s.current_time = 0 → (l.foldl init_stage_step s).failed = none →
      (l.foldl init_stage_step s).current_time = 0 := by
  induction l with
  | nil => intro s _ _ hct _; exact hct
  | cons k l ih =>
    intro s hfa hsch hct hok
    rw [List.foldl_cons] at hok ⊢
    have hs'f : (init_stage_step s k).failed = none := by
      by_cases h : (init_stage_step s k).failed.isSome
      · rw [initFold_failed l _ h] at hok
        exact hok
      · exact Option.not_isSome_iff_eq_none.mp h
    rcases init_stage_step_spec s k hfa hsch with h | ⟨h1, h2, h3, h4, h5, h6, h7⟩
    · rw [hs'f] at h
      simp at h
    · exact ih (init_stage_step s k) h1 h6 h2 hok

theorem init_fold_filter (i : ComponentID) (l : List Nat) :
    ∀ s : Kernel, s.failed = none → (∀ e ∈ s.scheduled, 0 < e.time) →
      (s.workers i).isSome → i < s.components.length →
      (l.foldl init_stage_step s).failed = none →
      (l.foldl init_stage_step s).trace.filter (fun d => d.2.1 = i) =
        s.trace.filter (fun d => d.2.1 = i) ++
          l.map (fun k => ((0 : Time), i, "init " ++ toString k)) := by
  induction l with
  | nil => intro s _ _ _ _ _; simp
  | cons k l ih =>
    intro s hfa hsch hw hlt hok
    rw [List.foldl_cons] at hok ⊢
    have hs'f : (init_stage_step s k).failed = none := by
      by_cases h : (init_stage_step s k).failed.isSome
      · rw [initFold_failed l _ h] at hok
        exact hok
      · exact Option.not_isSome_iff_eq_none.mp h
    rcases init_stage_step_spec s k hfa hsch with h | ⟨h1, h2, h3, h4, h5, h6, h7⟩
    · rw [hs'f] at h
      simp at h
    · have hIH := ih (init_stage_step s k) h1 h6 (h5 i hw) (h3 ▸ hlt) hok
      rw [hIH, h7, List.filter_append, chunk_filter i s _ hw hlt]
      simp

/-! ### C3 -/

/-- C3: starting from a fresh kernel (time 0, nothing dispatched yet, every
pre-scheduled event strictly in the future, event senders indexed by the
component vector), when `init_components` completes without a panic it has
delivered, to every active component i, exactly the events
`"init 0", …, "init (num_init_stages - 1)"` — each exactly once, each at
logical time 0, in increasing stage order (stage k's dispatch pass completes
before stage k+1 is scheduled) — and `current_time` is still 0 afterwards. -/
theorem init_delivers_stages_in_order (s0 : Kernel)
    (htr : s0.trace = []) (hct : s0.current_time = 0) (hex : s0.exited = none)
    (hfa : s0.failed = none)
    (hsch : ∀ e ∈ s0.scheduled, 0 < e.time)
    (hwlt : ∀ i, (s0.workers i).isSome → i < s0.components.length)
    (hok : (init_components s0).failed = none) :
    (init_components s0).current_time = 0 ∧
    ∀ i, (s0.workers i).isSome →
      (init_components s0).trace.filter (fun d => d.2.1 = i) =
        (List.range s0.cfg.num_init_stages).map
          (fun k => ((0 : Time), i, "init " ++ toString k)) := by
  have hinit : init_components s0 =
      (List.range s0.cfg.num_init_stages).foldl init_stage_step s0 := by
    unfold init_components
    rw [hex]
    simp
  rw [hinit] at hok ⊢
  constructor
  · exact init_fold_time _ s0 hfa hsch hct hok
  · intro i hi
    have h := init_fold_filter i (List.range s0.cfg.num_init_stages) s0 hfa hsch hi
      (hwlt i hi) hok
    rw [h, htr]
    simp

/-- C3 witness: one active component, one init stage. -/
theorem init_delivers_stages_in_order_witness :
    exK3.trace = [] ∧ exK3.current_time = 0 ∧ exK3.exited = none ∧
    exK3.failed = none ∧ (init_components exK3).failed = none ∧
    (init_components exK3).current_time = 0 ∧
    (init_components exK3).trace.filter (fun d => d.2.1 = 0) =
      (List.range exK3.cfg.num_init_stages).map
        (fun k => ((0 : Time), 0, "init " ++ toString k)) := by
  have hwlt : ∀ i, (exK3.workers i).isSome → i < exK3.components.length := by
    intro i hi
    show i < 1
    by_cases h : i = 0
    · rw [h]
      exact Nat.zero_lt_one
    · have : exK3.workers i = none := by
        show (if i = 0 then some quietWorker else none) = none
        rw [if_neg h]
      rw [this] at hi
      simp at hi
  have hsch : ∀ e ∈ exK3.scheduled, 0 < e.time := by
    intro e he
    simp [exK3] at he
  have hok : (init_components exK3).failed = none := by rfl
  have hmain := init_delivers_stages_in_order exK3 rfl rfl rfl rfl hsch hwlt hok
  exact ⟨rfl, rfl, rfl, rfl, hok, hmain.1, hmain.2 0 rfl⟩
